import Mathlib

/-!
Verification of the getblobz synchronisation engine against its
natural-language specification.

The Go source is shallowly embedded: Go `time.Time` values are opaque
tokens (strings in the RFC3339 layout the program formats and parses
with), Go errors are their message strings, the SQLite tables are lists
of records, and the filesystem effects of a download are an explicit
operation trace over the two paths a download touches.  Every
definition is translated from the source files of the repository.
-/

set_option autoImplicit false

/-- Go `time.Time`, modelled as the string the program would obtain by
formatting it with the fixed layout `2006-01-02T15:04:05Z`.  The program
only ever formats, parses back, and compares such values, so the
formatted text is a faithful opaque token for the instant. -/
abbrev GoTime := String

/-! ## Storage models (internal/storage/models.go) -/

/-- Status constant `SyncStatusRunning` from models.go. -/
def syncStatusRunning : String := "running"
/-- Status constant `SyncStatusCompleted` from models.go. -/
def syncStatusCompleted : String := "completed"
/-- Status constant `SyncStatusFailed` from models.go. -/
def syncStatusFailed : String := "failed"
/-- Status constant `BlobStatusPending` from models.go. -/
def blobStatusPending : String := "pending"
/-- Status constant `BlobStatusDownloaded` from models.go. -/
def blobStatusDownloaded : String := "downloaded"
/-- Status constant `BlobStatusFailed` from models.go. -/
def blobStatusFailed : String := "failed"
/-- Status constant `BlobStatusSkipped` from models.go. -/
def blobStatusSkipped : String := "skipped"
/-- Error-kind constant `ErrorTypeNetwork` from models.go. -/
def errorTypeNetwork : String := "network"
/-- Error-kind constant `ErrorTypeChecksum` from models.go. -/
def errorTypeChecksum : String := "checksum"
/-- Error-kind constant `ErrorTypeDisk` from models.go. -/
def errorTypeDisk : String := "disk"
/-- Error-kind constant `ErrorTypeAuth` from models.go. -/
def errorTypeAuth : String := "auth"
/-- Error-kind constant `ErrorTypeUnknown` from models.go. -/
def errorTypeUnknown : String := "unknown"

/-- `storage.BlobState` (models.go): one row of the `blob_state` table.
The SQLite rowid is not modelled; rows are keyed by `blobName`, which
the schema declares UNIQUE. -/
structure BlobState where
  blobName : String
  blobPath : String
  localPath : String
  sizeBytes : Int
  contentMD5 : Option String
  lastModified : GoTime
  etag : String
  firstSeenAt : GoTime
  lastSyncedAt : Option GoTime
  syncRunID : Option Int
  status : String
  errorMessage : Option String
deriving Repr, DecidableEq

/-- `storage.SyncRun` (models.go): one row of the `sync_runs` table. -/
structure SyncRun where
  id : Int
  startedAt : GoTime
  completedAt : Option GoTime
  status : String
  totalFiles : Int
  downloadedFiles : Int
  failedFiles : Int
  totalBytes : Int
  errorMessage : Option String
deriving Repr, DecidableEq

/-- One row of the `error_log` table, as written by `DB.RecordError`
(db.go): the sync-run id, blob name, classified error type, message and
the attempt index passed as `retry_count`. -/
structure ErrorLogRow where
  syncRunID : Option Int
  blobName : String
  errorType : String
  errorMessage : String
  retryCount : Nat
deriving Repr, DecidableEq

/-! ## State-store operations (internal/storage/db.go) -/

/-- `DB.GetBlobState` (db.go): `SELECT ... FROM blob_state WHERE
blob_name = ?`; `sql.ErrNoRows` becomes `none`. -/
def getBlobState (table : List BlobState) (name : String) : Option BlobState :=
  table.find? (fun r => r.blobName = name)

/-- `DB.UpsertBlobState` (db.go): `INSERT ... ON CONFLICT(blob_name) DO
UPDATE SET` every column except `first_seen_at` (and the rowid).  If no
row carries the key the incoming row is inserted; otherwise the existing
row is overwritten field by field, keeping only its original
`first_seen_at`. -/
def upsertBlobState (table : List BlobState) (b : BlobState) : List BlobState :=
  if table.any (fun r => r.blobName = b.blobName) then
    table.map (fun r =>
      if r.blobName = b.blobName then { b with firstSeenAt := r.firstSeenAt } else r)
  else
    table ++ [b]

/-- `DB.GetSyncRun` (db.go): `SELECT ... FROM sync_runs WHERE id = ?`. -/
def getSyncRun (runs : List SyncRun) (id : Int) : Option SyncRun :=
  runs.find? (fun r => r.id = id)

/-- `DB.UpdateSyncRun` (db.go): `UPDATE sync_runs SET completed_at,
status, total_files, downloaded_files, failed_files, total_bytes,
error_message WHERE id = ?` — every column of the record except the
immutable `started_at` and the key. -/
def updateSyncRun (runs : List SyncRun) (run : SyncRun) : List SyncRun :=
  runs.map (fun r =>
    if r.id = run.id then { run with id := r.id, startedAt := r.startedAt } else r)

/-- `DB.CreateSyncRun` (db.go): inserts a row with `started_at = now`,
`status = running`; the aggregate-count columns take their schema
defaults of 0 and `completed_at`/`error_message` start NULL.  The
AUTOINCREMENT id is modelled as one past the current row count. -/
def createSyncRun (runs : List SyncRun) (now : GoTime) : List SyncRun × Int :=
  let id : Int := runs.length + 1
  (runs ++ [{ id := id, startedAt := now, completedAt := none,
              status := syncStatusRunning, totalFiles := 0, downloadedFiles := 0,
              failedFiles := 0, totalBytes := 0, errorMessage := none }], id)

/-! ## Azure client (internal/azure/client.go) -/

/-- `azure.BlobInfo` (client.go): the listing metadata for one blob.
`lastModified` is already the formatted string the client produces with
the fixed layout. -/
structure BlobInfo where
  name : String
  path : String
  size : Int
  etag : String
  lastModified : String
  contentMD5 : List (Fin 256)
deriving Repr, DecidableEq

/-- `fmt.Sprintf` with the `x` verb on a byte slice: two lowercase hex
digits per byte (`Nat.digitChar` renders 0–15 as `0`–`9a`–`f`). -/
def hexEncode (bs : List (Fin 256)) : String :=
  String.mk (bs.foldr (fun b acc => Nat.digitChar (b.val / 16) :: Nat.digitChar (b.val % 16) :: acc) [])

/-- `Client.ListBlobs` (client.go) over a fixed remote listing.  The
function builds a fresh flat pager on every call and fetches a single
page with `if pager.More() { pager.NextPage(...) }`: the returned blobs
are the first `maxResults` items of the listing, and the continuation
token is the page's `NextMarker`, non-nil exactly when more items
remain.  The function has no parameter through which a caller could
pass a previous continuation token back in, so every call returns the
same first page. -/
def listBlobs (remote : List BlobInfo) (maxResults : Nat) :
    List BlobInfo × Option String :=
  let page := remote.take maxResults
  let marker : Option String :=
    if maxResults < remote.length then some "next-marker" else none
  (page, marker)

/-! ## Discovery phase (internal/sync/syncer.go, `Syncer.discovery`) -/

/-- Sync configuration fields consumed by the embedded code paths
(config.Config.Sync). -/
structure SyncConfig where
  container : String
  outputPath : String
  forceResync : Bool
  skipExisting : Bool
  verifyChecksums : Bool
  diskStopPercent : Nat
  diskWarnPercent : Nat
  batchSize : Nat
deriving Repr, DecidableEq

/-- The status chosen by `Syncer.discovery` for one listed blob: starts
`pending`; for an existing record, when not forcing a resync and both
the etag and the formatted last-modified timestamp match, the
skip-existing policy turns it into `skipped`; every other branch leaves
it `pending`. -/
def discoveryStatus (cfg : SyncConfig) (blob : BlobInfo)
    (existing : Option BlobState) : String :=
  match existing with
  | none => blobStatusPending
  | some ex =>
    if cfg.forceResync then blobStatusPending
    else if ex.etag = blob.etag ∧ ex.lastModified = blob.lastModified then
      if cfg.skipExisting then blobStatusSkipped else blobStatusPending
    else blobStatusPending

/-- The `storage.BlobState` record `Syncer.discovery` builds for one
listed blob before upserting it: local path is `outputPath/blobPath`,
`firstSeenAt` is the current time, the optional hex-encoded MD5 is set
only for a non-empty `ContentMD5`, and `lastSyncedAt`, `syncRunID` and
`errorMessage` are left at their zero values (nil). -/
def discoveryBlobState (cfg : SyncConfig) (now : GoTime) (blob : BlobInfo)
    (existing : Option BlobState) : BlobState :=
  { blobName := blob.name
    blobPath := blob.path
    localPath := cfg.outputPath ++ "/" ++ blob.path
    sizeBytes := blob.size
    contentMD5 := if blob.contentMD5.length > 0 then some (hexEncode blob.contentMD5) else none
    lastModified := blob.lastModified
    etag := blob.etag
    firstSeenAt := now
    lastSyncedAt := none
    syncRunID := none
    status := discoveryStatus cfg blob existing
    errorMessage := none }

/-- One iteration body of the discovery page loop: upsert the record
built for each blob of the page into the `blob_state` table. -/
def discoveryUpsertPage (cfg : SyncConfig) (now : GoTime)
    (table : List BlobState) (page : List BlobInfo) : List BlobState :=
  page.foldl (fun t blob =>
    upsertBlobState t (discoveryBlobState cfg now blob (getBlobState t blob.name))) table

/-- The page loop of `Syncer.discovery`, run with explicit fuel: call
`ListBlobs`, upsert every blob of the returned page, stop when the
returned continuation token is nil, otherwise loop.  The result records
whether the loop reached its natural `break` (`some` of the final
table) or the fuel ran out first (`none`), together with the list of
blobs upserted so far in order. -/
def discoveryGo (cfg : SyncConfig) (now : GoTime) (remote : List BlobInfo) :
    Nat → List BlobState → List BlobInfo → Option (List BlobState) × List BlobInfo
  | 0, _, upserted => (none, upserted)
  | fuel + 1, table, upserted =>
    let (page, token) := listBlobs remote cfg.batchSize
    let table := discoveryUpsertPage cfg now table page
    let upserted := upserted ++ page
    match token with
    | none => (some table, upserted)
    | some _ => discoveryGo cfg now remote fuel table upserted

/-- `Syncer.discovery` from an initial `blob_state` table, with fuel
bounding the number of page-loop iterations. -/
def discovery (cfg : SyncConfig) (now : GoTime) (remote : List BlobInfo)
    (fuel : Nat) (table : List BlobState) : Option (List BlobState) × List BlobInfo :=
  discoveryGo cfg now remote fuel table []

/-! ## Completion phase (internal/sync/syncer.go, `Syncer.complete`) -/

/-- `Syncer.complete`: read the current sync run, stamp `completedAt`
with the current time, set the status to `completed`, and write the
record back with `UpdateSyncRun`.  No other field is touched and no
query against `blob_state` is made. -/
def complete (runs : List SyncRun) (runId : Int) (now : GoTime) :
    Except String (List SyncRun) :=
  match getSyncRun runs runId with
  | none => .error "failed to get sync run"
  | some run =>
    let run := { run with completedAt := some now, status := syncStatusCompleted }
    .ok (updateSyncRun runs run)

/-- Aggregate counts derivable from the per-object records of the state
store, in the sense of the specification's completion contract: total
records, records in `downloaded` status, records in `failed` status,
and the byte sum of the downloaded ones. -/
def derivedCounts (table : List BlobState) : Int × Int × Int × Int :=
  ( table.length
  , (table.filter (fun b => b.status = blobStatusDownloaded)).length
  , (table.filter (fun b => b.status = blobStatusFailed)).length
  , (table.filter (fun b => b.status = blobStatusDownloaded)).foldl
      (fun acc b => acc + b.sizeBytes) 0 )

/-! ## Worker error classification (internal/sync/worker.go) -/

/-- Keyword constants consulted by `classifyError`. -/
def kwChecksum : String := "checksum"
def kwMd5 : String := "md5"
def kwNetwork : String := "network"
def kwTimeout : String := "timeout"
def kwConnection : String := "connection"
def kwDisk : String := "disk"
def kwSpace : String := "space"
def kwPermission : String := "permission"
def kwAuth : String := "auth"
def kwUnauthorized : String := "unauthorized"

/-- `indexOf` (worker.go): the first byte index at which `sub` occurs in
`s`, or -1; the loop runs `i` from 0 through `len(s) - len(sub)`, so a
pattern longer than the text yields -1. -/
def goIndexOf (s sub : List Char) : Int :=
  if sub.length > s.length then -1
  else
    match (List.range (s.length - sub.length + 1)).find?
        (fun i => decide ((s.drop i).take sub.length = sub)) with
    | some i => (i : Int)
    | none => -1

/-- `contains` (worker.go): substring test written as length guard,
equality, then byte-prefix, byte-suffix or `indexOf` hit.  (Despite its
doc comment it is byte-for-byte case-sensitive.) -/
def goContains (s sub : String) : Bool :=
  let sd := s.data
  let bd := sub.data
  decide (sd.length ≥ bd.length) &&
    (decide (sd = bd) ||
      (decide (sd.length > bd.length) &&
        (decide (sd.take bd.length = bd) ||
          decide (sd.drop (sd.length - bd.length) = bd) ||
          decide (goIndexOf sd bd ≥ 0))))

/-- `classifyError` (worker.go): keyword scan over the error message,
first match wins, in the order checksum, network, disk, auth. -/
def classifyError (err : Option String) : String :=
  match err with
  | none => errorTypeUnknown
  | some e =>
    if goContains e kwChecksum || goContains e kwMd5 then errorTypeChecksum
    else if goContains e kwNetwork || goContains e kwTimeout || goContains e kwConnection then
      errorTypeNetwork
    else if goContains e kwDisk || goContains e kwSpace || goContains e kwPermission then
      errorTypeDisk
    else if goContains e kwAuth || goContains e kwUnauthorized then errorTypeAuth
    else errorTypeUnknown

/-- `isRetryable` (worker.go): only the network and checksum kinds are
retried. -/
def isRetryable (err : Option String) : Bool :=
  match err with
  | none => false
  | some e =>
    let t := classifyError (some e)
    decide (t = errorTypeNetwork) || decide (t = errorTypeChecksum)

/-! ## Worker retry loop (internal/sync/worker.go, `Syncer.processBlob`) -/

/-- `maxRetries` constant (worker.go). -/
def maxRetries : Nat := 3

/-- `baseDelay` constant (worker.go), in milliseconds. -/
def baseDelay : Nat := 1000

/-- The message built by `fmt.Errorf("disk usage %d%% >= stop threshold
%d%%", usage, stop)` in `processBlob`. -/
def diskExhaustedMsg (usage stop : Nat) : String :=
  "disk usage " ++ toString usage ++ "% >= stop threshold " ++ toString stop ++ "%"

/-- The observable inputs of one iteration of the retry loop: the
filesystem-usage reading taken before the attempt (`none` models a
`Statfs` failure, which the code logs and ignores), and the outcome of
`downloadBlob` for this attempt (`none` is success, `some msg` the
error message). -/
structure AttemptEnv where
  usage : Option Nat
  dl : Option String
deriving Repr, DecidableEq

/-- Observable actions of `processBlob`, in program order: the backoff
sleep at the top of a retry iteration, a call to `downloadBlob` for a
given attempt index, a `DB.RecordError` write, and a
`DB.UpsertBlobState` write of the final record. -/
inductive WorkerEv where
  | sleep (ms : Nat)
  | download (blobName : String) (attempt : Nat)
  | recordError (row : ErrorLogRow)
  | upsert (b : BlobState)
deriving Repr, DecidableEq

/-- The tail of `processBlob` after the loop: mark the record `failed`,
store the last error's message, and upsert it. -/
def finishFailed (blob : BlobState) (lastErr : Option String) :
    List WorkerEv × BlobState :=
  let b := { blob with status := blobStatusFailed, errorMessage := lastErr }
  ([WorkerEv.upsert b], b)

/-- The retry loop of `Syncer.processBlob`, indexed by the remaining
iteration budget (`maxRetries - attempt`).  Each iteration sleeps
`baseDelay * 2^(attempt-1)` when `attempt > 0`, then takes the
filesystem-usage reading: a reading at or above the stop threshold sets
the disk-exhaustion error as the last error and breaks out of the loop
without calling `downloadBlob` and without recording an error-log
entry.  Otherwise `downloadBlob` runs; on success the record is
upserted as `downloaded` with the synced time and owning run id and the
function returns; on failure the error is recorded to the error log
with the attempt index and the loop continues exactly when the error is
retryable. -/
def processGo (cfg : SyncConfig) (runId : Int) (now : GoTime)
    (env : Nat → AttemptEnv) (blob : BlobState) :
    Nat → Nat → Option String → List WorkerEv × BlobState
  | 0, _, lastErr => finishFailed blob lastErr
  | remaining + 1, attempt, _ =>
    let pre : List WorkerEv :=
      if attempt > 0 then [WorkerEv.sleep (baseDelay * 2 ^ (attempt - 1))] else []
    let diskBreak : Bool :=
      match (env attempt).usage with
      | some u => decide (u ≥ cfg.diskStopPercent)
      | none => false
    if diskBreak then
      let u := ((env attempt).usage).getD 0
      let r := finishFailed blob (some (diskExhaustedMsg u cfg.diskStopPercent))
      (pre ++ r.1, r.2)
    else
      match (env attempt).dl with
      | none =>
        let b := { blob with
                   status := blobStatusDownloaded
                   lastSyncedAt := some now
                   syncRunID := some runId }
        (pre ++ [WorkerEv.download blob.blobName attempt, WorkerEv.upsert b], b)
      | some e =>
        let evs := pre ++ [WorkerEv.download blob.blobName attempt,
          WorkerEv.recordError ⟨some runId, blob.blobName, classifyError (some e), e, attempt⟩]
        if isRetryable (some e) then
          let r := processGo cfg runId now env blob remaining (attempt + 1) (some e)
          (evs ++ r.1, r.2)
        else
          let r := finishFailed blob (some e)
          (evs ++ r.1, r.2)

/-- `Syncer.processBlob`: the retry loop started at attempt 0 with no
last error and `maxRetries` iterations available. -/
def processBlob (cfg : SyncConfig) (runId : Int) (now : GoTime)
    (env : Nat → AttemptEnv) (blob : BlobState) : List WorkerEv × BlobState :=
  processGo cfg runId now env blob maxRetries 0 none

/-- `Syncer.worker`: drain the closed queue, calling `processBlob` on
every item in turn; a failed item does not stop the loop.  `envs` gives
the per-item attempt environments, indexed by queue position. -/
def runWorker (cfg : SyncConfig) (runId : Int) (now : GoTime)
    (envs : Nat → Nat → AttemptEnv) :
    List BlobState → Nat → List (List WorkerEv × BlobState)
  | [], _ => []
  | b :: rest, idx =>
    processBlob cfg runId now (envs idx) b :: runWorker cfg runId now envs rest (idx + 1)

/-- Number of `downloadBlob` calls recorded in a worker trace. -/
def attemptsOf (evs : List WorkerEv) : Nat :=
  (evs.filter (fun e => match e with | WorkerEv.download _ _ => true | _ => false)).length

/-- The backoff sleeps of a worker trace, in order. -/
def sleepsOf (evs : List WorkerEv) : List Nat :=
  evs.filterMap (fun e => match e with | WorkerEv.sleep d => some d | _ => none)

/-- Whether the trace contains a `downloadBlob` call for attempt `i`. -/
def startedAttempt (evs : List WorkerEv) (i : Nat) : Bool :=
  evs.any (fun e => match e with | WorkerEv.download _ j => decide (j = i) | _ => false)

/-- The error-log rows written in a worker trace, in order. -/
def errorRowsOf (evs : List WorkerEv) : List ErrorLogRow :=
  evs.filterMap (fun e => match e with | WorkerEv.recordError r => some r | _ => none)

/-- Whether the usage reading of an attempt environment passes the
pre-flight stop-threshold guard. -/
def diskOk (cfg : SyncConfig) (a : AttemptEnv) : Bool :=
  match a.usage with
  | some u => decide (u < cfg.diskStopPercent)
  | none => true

/-! ## Download and atomic commit (internal/sync/worker.go, `Syncer.downloadBlob`) -/

/-- Characters of the parent directory of a path: everything before the
last slash, as `filepath.Dir` computes for the clean slash-containing
paths the program builds. -/
def dirChars (cs : List Char) : List Char :=
  ((cs.reverse.dropWhile (fun c => c ≠ '/')).drop 1).reverse

/-- Parent directory of a path (see `dirChars`). -/
def goDir (s : String) : String :=
  String.mk (dirChars s.data)

/-- The temporary-file suffix used by `downloadBlob`. -/
def tmpSuffix : String := ".tmp"

/-- The temporary path `blob.LocalPath + ".tmp"`. -/
def tmpPathOf (localPath : String) : String := localPath ++ tmpSuffix

/-- Filesystem operations performed by `downloadBlob`, in program
order. -/
inductive FsOp where
  | mkdirAll (dir : String)
  | createFile (path : String)
  | writeFile (path : String) (content : String)
  | removeFile (path : String)
  | renameFile (src dst : String)
deriving Repr, DecidableEq

/-- The filesystem state at the two paths a download touches: the
content at the temporary path and at the final path (`none` = the file
does not exist). -/
structure FsState where
  tmp : Option String
  final : Option String
deriving Repr, DecidableEq

/-- Effect of one operation on the two tracked paths.  `mkdirAll` does
not touch either file; `renameFile` moves the temporary content over
the final path when invoked on exactly those two paths (the only way
the code invokes it). -/
def applyOp (tmpPath finPath : String) (st : FsState) : FsOp → FsState
  | FsOp.mkdirAll _ => st
  | FsOp.createFile p =>
    if p = tmpPath then { st with tmp := some "" }
    else if p = finPath then { st with final := some "" }
    else st
  | FsOp.writeFile p c =>
    if p = tmpPath then { st with tmp := some c }
    else if p = finPath then { st with final := some c }
    else st
  | FsOp.removeFile p =>
    if p = tmpPath then { st with tmp := none }
    else if p = finPath then { st with final := none }
    else st
  | FsOp.renameFile src dst =>
    if src = tmpPath ∧ dst = finPath then { st with tmp := none, final := st.tmp }
    else st

/-- Run a trace of operations from a state. -/
def applyOps (tmpPath finPath : String) (st : FsState) (ops : List FsOp) : FsState :=
  ops.foldl (applyOp tmpPath finPath) st

/-- Whether an operation mutates the file at the final path. -/
def mutatesFinal (finPath : String) : FsOp → Bool
  | FsOp.mkdirAll _ => false
  | FsOp.createFile p => decide (p = finPath)
  | FsOp.writeFile p _ => decide (p = finPath)
  | FsOp.removeFile p => decide (p = finPath)
  | FsOp.renameFile _ dst => decide (dst = finPath)

/-- The outcome of the environment a single `downloadBlob` call runs
against: whether `os.MkdirAll` and `os.Create` succeed, the result of
streaming the remote content (`dlErr` is the `DownloadBlob`/`io.Copy`
error if any), the bytes that reached the temporary file, the digest
function connecting content to its hex MD5, and whether `os.Rename`
succeeds. -/
structure DlEnv where
  mkdirOk : Bool
  createOk : Bool
  dlErr : Option String
  content : String
  digest : String → String
  renameOk : Bool

/-- `Syncer.downloadBlob`: create the parent directory, create
`LocalPath + ".tmp"`, stream the download into it, on enabled
verification with a reference MD5 compare the streamed digest, and
finally rename the temporary file over the final path.  Every failure
after the temporary file exists removes the temporary file; the
function returns the error and the filesystem trace it performed. -/
def downloadBlob (cfg : SyncConfig) (env : DlEnv) (blob : BlobState) :
    Except String Unit × List FsOp :=
  let dir := goDir blob.localPath
  let tmpPath := tmpPathOf blob.localPath
  if ¬ env.mkdirOk then (.error "failed to create directory", [FsOp.mkdirAll dir])
  else if ¬ env.createOk then
    (.error "failed to create temp file", [FsOp.mkdirAll dir])
  else
    let ops := [FsOp.mkdirAll dir, FsOp.createFile tmpPath,
                FsOp.writeFile tmpPath env.content]
    match env.dlErr with
    | some e => (.error ("download failed: " ++ e), ops ++ [FsOp.removeFile tmpPath])
    | none =>
      let mismatch : Bool :=
        cfg.verifyChecksums &&
          (match blob.contentMD5 with
           | some ref => decide (env.digest env.content ≠ ref)
           | none => false)
      if mismatch then
        let ref := (blob.contentMD5).getD ""
        (.error ("checksum mismatch: expected " ++ ref ++ ", got " ++ env.digest env.content),
         ops ++ [FsOp.removeFile tmpPath])
      else if env.renameOk then
        (.ok (), ops ++ [FsOp.renameFile tmpPath blob.localPath])
      else
        (.error "failed to rename temp file", ops ++ [FsOp.removeFile tmpPath])

/-! ## Folder organizer (internal/organizer/organizer.go) -/

/-- Decimal digits of a natural number, most significant first, with an
explicit fuel bound on the recursion depth. -/
def natDigitsAux : Nat → Nat → List Char
  | 0, _ => []
  | fuel + 1, n =>
    if n < 10 then [Nat.digitChar n]
    else natDigitsAux fuel (n / 10) ++ [Nat.digitChar (n % 10)]

/-- Decimal digits of a natural number, most significant first, as
`fmt.Sprintf` with the `d` verb renders a non-negative `int`.  The fuel
`n + 1` always suffices since the argument shrinks by division. -/
def natDigits (n : Nat) : List Char :=
  natDigitsAux (n + 1) n

/-- `fmt.Sprintf` with the `04d` verb: the decimal digits left-padded
with zeros to at least four characters. -/
def pad4 (n : Nat) : String :=
  let ds := natDigits n
  String.mk (List.replicate (4 - ds.length) '0' ++ ds)

/-- The bucket directory name `fmt.Sprintf("folder_%04d", i)` used by
`getSequentialFolder`. -/
def seqFolderName (i : Nat) : String :=
  "folder_" ++ pad4 i

/-- Value of a list of decimal digit characters, as `fmt.Sscanf` with
the `d` verb accumulates them. -/
def digitsToNat (ds : List Char) : Nat :=
  ds.foldl (fun a c => a * 10 + (c.toNat - 48)) 0

/-- `fmt.Sscanf(name, "folder_%d", &idx)` on a directory name: succeeds
when the name begins with `folder_` followed by at least one decimal
digit, yielding the value of the maximal leading digit run. -/
def parseSeqIdx (s : String) : Option Nat :=
  let cs := s.data
  let tag := "folder_".data
  if cs.take 7 = tag then
    let ds := (cs.drop 7).takeWhile Char.isDigit
    if ds.isEmpty then none else some (digitsToNat ds)
  else none

/-- `config.FolderOrganizationConfig`: the fields the organizer
consults. -/
structure OrgConfig where
  enabled : Bool
  maxFilesPerFolder : Nat
  strategy : String
deriving Repr, DecidableEq

/-- `organizer.Organizer`: the mutable organizer state.  The Go
`map[string]int` `folderCounts` (absent key reads as 0) is an
association list with default-0 lookup; `currentFolder` starts at the
empty string and `folderIndex` at 0, as `New` builds them. -/
structure Organizer where
  cfg : OrgConfig
  basePath : String
  folderCounts : List (String × Nat)
  currentFolder : String
  folderIndex : Nat
deriving Repr, DecidableEq

/-- `organizer.New`. -/
def orgNew (cfg : OrgConfig) (basePath : String) : Organizer :=
  { cfg := cfg, basePath := basePath, folderCounts := [],
    currentFolder := "", folderIndex := 0 }

/-- Go map read `folderCounts[k]`: 0 when the key is absent. -/
def lookupCount (m : List (String × Nat)) (k : String) : Nat :=
  match m.find? (fun p => p.1 = k) with
  | some p => p.2
  | none => 0

/-- Go map write `folderCounts[k] = v`. -/
def setCount (m : List (String × Nat)) (k : String) (v : Nat) : List (String × Nat) :=
  if m.any (fun p => p.1 = k) then
    m.map (fun p => if p.1 = k then (k, v) else p)
  else m ++ [(k, v)]

/-- `Organizer.trackFile`: increment the count of a folder. -/
def trackFile (m : List (String × Nat)) (k : String) : List (String × Nat) :=
  setCount m k (lookupCount m k + 1)

/-- `Organizer.getSequentialFolder`: when there is no current folder
yet, or the current folder has reached `MaxFilesPerFolder`, name the
bucket `folder_%04d` from `folderIndex` and advance `folderIndex`;
return the (possibly new) current folder. -/
def getSequentialFolder (o : Organizer) : String × Organizer :=
  if o.currentFolder = "" ∨ lookupCount o.folderCounts o.currentFolder ≥ o.cfg.maxFilesPerFolder then
    let f := seqFolderName o.folderIndex
    (f, { o with currentFolder := f, folderIndex := o.folderIndex + 1 })
  else
    (o.currentFolder, o)

/-- The folder selection plus `trackFile` bookkeeping that
`Organizer.GetTargetPath` performs for one resolution under the
`sequential` strategy. -/
def resolveSeq (o : Organizer) : String × Organizer :=
  let p := getSequentialFolder o
  (p.1, { p.2 with folderCounts := trackFile p.2.folderCounts p.1 })

/-- `filepath.Join` for the clean, non-empty relative components the
organizer produces. -/
def pathJoin (a b : String) : String := a ++ "/" ++ b

/-- `Organizer.GetTargetPath` under the `sequential` strategy (the
strategy the sequential-organizer claims are about): disabled
organization is the identity mapping onto the base path; otherwise the
target is base/folder/blobPath, with the folder chosen by
`getSequentialFolder` and recorded by `trackFile`. -/
def getTargetPathSeq (o : Organizer) (blobPath : String) : String × Organizer :=
  if o.cfg.enabled = false then (pathJoin o.basePath blobPath, o)
  else
    let p := resolveSeq o
    (pathJoin (pathJoin p.2.basePath p.1) blobPath, p.2)

/-- The folder assignments of `n` successive sequential resolutions,
together with the final organizer state. -/
def seqAssignments (o : Organizer) : Nat → List String × Organizer
  | 0 => ([], o)
  | n + 1 =>
    let p := resolveSeq o
    let rest := seqAssignments p.2 n
    (p.1 :: rest.1, rest.2)

/-- One directory entry of the base path as `os.ReadDir` reports it:
its name, whether it is a directory, and the number of non-directory
entries inside it (what `countFilesInFolder` would count). -/
structure DirEntry where
  name : String
  isDir : Bool
  fileCount : Nat
deriving Repr, DecidableEq

/-- `Organizer.loadSequentialState`: fold over the directory entries of
the base path in listing order; every directory whose name scans as
`folder_%d` raises the running maximum index, stores its file count,
and — when still below capacity — becomes the current folder with
`folderIndex` set to its own index.  After the scan, if some indexed
folder was seen but none was below capacity, `folderIndex` becomes the
maximum index plus one. -/
def loadSequentialState (o : Organizer) (entries : List DirEntry) : Organizer :=
  let step := fun (acc : Int × Organizer) (e : DirEntry) =>
    let (maxIdx, o) := acc
    if ¬ e.isDir then (maxIdx, o)
    else
      match parseSeqIdx e.name with
      | none => (maxIdx, o)
      | some idx =>
        let maxIdx := if (idx : Int) > maxIdx then (idx : Int) else maxIdx
        let o := { o with folderCounts := setCount o.folderCounts e.name e.fileCount }
        let o :=
          if e.fileCount < o.cfg.maxFilesPerFolder then
            { o with currentFolder := e.name, folderIndex := idx }
          else o
        (maxIdx, o)
  let r := entries.foldl step (-1, o)
  if r.1 ≥ 0 ∧ r.2.currentFolder = "" then
    { r.2 with folderIndex := r.1.toNat + 1 }
  else r.2

/-- The failed record `processBlob` upserts after its loop: status
`failed` with the last error's message. -/
def failedRec (blob : BlobState) (msg : String) : BlobState :=
  { blob with status := blobStatusFailed, errorMessage := some msg }

/-- The successful record `processBlob` upserts: status `downloaded`
with the synced time and owning run id. -/
def dledRec (blob : BlobState) (runId : Int) (now : GoTime) : BlobState :=
  { blob with
    status := blobStatusDownloaded
    lastSyncedAt := some now
    syncRunID := some runId }

/-- The error-log row `processBlob` writes for a failed attempt. -/
def errRow (runId : Int) (blob : BlobState) (e : String) (i : Nat) : ErrorLogRow :=
  { syncRunID := some runId, blobName := blob.blobName,
    errorType := classifyError (some e), errorMessage := e, retryCount := i }

/-- The disk-exhaustion message of the attempt-`i` usage reading. -/
def diskMsgAt (cfg : SyncConfig) (env : Nat → AttemptEnv) (i : Nat) : String :=
  diskExhaustedMsg (((env i).usage).getD 0) cfg.diskStopPercent

/-- The bucket-count map of a fresh sequential run that has filled
buckets `0 … q-1` to capacity `C` and placed `r` files in bucket `q`. -/
def countsFor (C q r : Nat) : List (String × Nat) :=
  ((List.range q).map (fun j => (seqFolderName j, C))) ++ [(seqFolderName q, r)]

/-- The organizer state of a fresh sequential run that has filled `q`
buckets to capacity and placed `r` files in bucket `q`. -/
def seqStateAt (cfg : OrgConfig) (base : String) (q r : Nat) : Organizer :=
  { cfg := cfg, basePath := base,
    folderCounts := countsFor cfg.maxFilesPerFolder q r,
    currentFolder := seqFolderName q, folderIndex := q + 1 }

/-- The organizer state of a fresh sequential run after `t ≥ 1` total
placements: bucket `(t-1)/C` holds `(t-1) % C + 1` files. -/
def seqStateAfter (cfg : OrgConfig) (base : String) (t : Nat) : Organizer :=
  seqStateAt cfg base ((t - 1) / cfg.maxFilesPerFolder)
    ((t - 1) % cfg.maxFilesPerFolder + 1)

/-! ## Concrete fixtures used by the witnesses and counterexamples -/

/-- A configuration with listing page size 2 and disk thresholds 80/90,
checksums off. -/
def exCfg : SyncConfig :=
  { container := "cont", outputPath := "/out", forceResync := false,
    skipExisting := true, verifyChecksums := false, diskStopPercent := 90,
    diskWarnPercent := 80, batchSize := 2 }

/-- A remote blob named by its key, of size 1. -/
def exBlob (n : String) : BlobInfo :=
  { name := n, path := n, size := 1, etag := "etag-1", lastModified := "2024-01-01T00:00:00Z",
    contentMD5 := [] }

/-- A three-blob remote listing: with page size 2 it spans two pages. -/
def exRemote3 : List BlobInfo := [exBlob "a", exBlob "b", exBlob "c"]

/-- The sync-run table right after `CreateSyncRun` on an empty store. -/
def exRuns : List SyncRun := (createSyncRun [] "2024-01-01T00:00:00Z").1

/-- A `blob_state` table holding one record downloaded by run 1 with
100 bytes. -/
def exDownloadedTable : List BlobState :=
  [{ blobName := "a", blobPath := "a", localPath := "/out/a", sizeBytes := 100,
     contentMD5 := none, lastModified := "2024-01-01T00:00:00Z", etag := "etag-1",
     firstSeenAt := "2024-01-01T00:00:00Z", lastSyncedAt := some "2024-01-02T00:00:00Z",
     syncRunID := some 1, status := blobStatusDownloaded,
     errorMessage := some "old error" }]

/-- A pending work item whose final artifact lives at `/out/d/f`. -/
def exPending : BlobState :=
  { blobName := "b1", blobPath := "d/f", localPath := "/out/d/f", sizeBytes := 5,
    contentMD5 := none, lastModified := "2024-01-01T00:00:00Z", etag := "etag-1",
    firstSeenAt := "2024-01-01T00:00:00Z", lastSyncedAt := none, syncRunID := none,
    status := blobStatusPending, errorMessage := none }

/-- A second pending work item. -/
def exPending2 : BlobState :=
  { exPending with blobName := "b2", blobPath := "d/g", localPath := "/out/d/g" }

/-- Attempt environment: every reading breaches the stop threshold. -/
def envBreach : Nat → AttemptEnv := fun _ => { usage := some 95, dl := some "network down" }

/-- Attempt environment: healthy disk, every download fails with a
network-classified error. -/
def envNetFail : Nat → AttemptEnv := fun _ => { usage := some 50, dl := some "network down" }

/-- Attempt environment: healthy disk, download succeeds at once. -/
def envOk : Nat → AttemptEnv := fun _ => { usage := some 50, dl := none }

/-- Attempt environment: healthy disk, single auth-classified failure. -/
def envAuthFail : Nat → AttemptEnv := fun _ => { usage := some 50, dl := some "unauthorized" }

/-- Per-item environments for a two-item queue: the first item observes
a breach, the second observes a healthy disk and succeeds. -/
def envQueue : Nat → Nat → AttemptEnv :=
  fun item => if item = 0 then envBreach else envOk

/-- A download environment in which everything succeeds and the content
is `data` with digest `d1`. -/
def dlEnvOk : DlEnv :=
  { mkdirOk := true, createOk := true, dlErr := none, content := "data",
    digest := fun _ => "d1", renameOk := true }

/-- A download environment whose streaming fails partway with a
network error, leaving partial content in the temporary file. -/
def dlEnvFail : DlEnv :=
  { mkdirOk := true, createOk := true, dlErr := some "connection reset",
    content := "part", digest := fun _ => "d1", renameOk := true }

/-- Sequential organizer configuration of capacity 3. -/
def orgCfg3 : OrgConfig :=
  { enabled := true, maxFilesPerFolder := 3, strategy := "sequential" }

/-- Sequential organizer configuration of capacity 10. -/
def orgCfg10 : OrgConfig :=
  { enabled := true, maxFilesPerFolder := 10, strategy := "sequential" }

/-- The directory tree of the repository's own `TestOrganizer_LoadState`
scenario: one bucket directory `folder_0000` holding 5 files. -/
def exTree : List DirEntry := [{ name := "folder_0000", isDir := true, fileCount := 5 }]

/-- The organizer state after `LoadState` on that tree with capacity 10. -/
def exLoaded : Organizer := loadSequentialState (orgNew orgCfg10 "/data") exTree

/-- A fixed current time for runs of the embedded phases. -/
def exNow : GoTime := "2024-01-05T00:00:00Z"

/-- An upsert payload for the key `a` with every field different from
the record `exDownloadedTable` stores under that key. -/
def exUpsertNew : BlobState :=
  { blobName := "a", blobPath := "a2", localPath := "/out2/a", sizeBytes := 7,
    contentMD5 := none, lastModified := "2024-02-01T00:00:00Z", etag := "etag-2",
    firstSeenAt := "2024-02-02T00:00:00Z", lastSyncedAt := none, syncRunID := none,
    status := blobStatusPending, errorMessage := none }

/-- A fresh record under a key no fixture table holds. -/
def exFresh : BlobState := { exUpsertNew with blobName := "z" }

/-! ## Claim C6 -/

/-- Claim C6 (code bug): after `LoadState` on a tree whose bucket
`folder_0000` holds 5 of 10 files, the restart-correctness property
fails: `loadSequentialState` resumes with `folderIndex = 0` (the index
of the still-open bucket itself, not the next one), so once the bucket
reaches capacity, `getSequentialFolder` re-selects `folder_0000` and
the sixth resolution overfills it to 11 files — more than the
configured capacity of 10. -/
theorem loadState_overfills_resumed_bucket :
    exLoaded.currentFolder = "folder_0000"
    ∧ exLoaded.folderIndex = 0
    ∧ (seqAssignments exLoaded 6).1 = List.replicate 6 "folder_0000"
    ∧ lookupCount (seqAssignments exLoaded 6).2.folderCounts "folder_0000" = 11
    ∧ orgCfg10.maxFilesPerFolder = 10 := by
  refine ⟨rfl, rfl, ?_, rfl, rfl⟩
  decide

/-! ## Claim C2 -/

/-- Claim C2 (code bug): `Syncer.complete` stamps the end time and sets
the status to `completed`, but performs no recomputation of the
aggregate counts — it writes back the zero counts the run was created
with, even though the per-object records of the state store derive the
counts (1 total, 1 downloaded, 0 failed, 100 bytes). -/
theorem complete_keeps_created_zero_counts :
    complete exRuns 1 "2024-01-02T00:00:00Z" =
      Except.ok [{ id := 1, startedAt := "2024-01-01T00:00:00Z",
                   completedAt := some "2024-01-02T00:00:00Z",
                   status := syncStatusCompleted, totalFiles := 0,
                   downloadedFiles := 0, failedFiles := 0, totalBytes := 0,
                   errorMessage := none }]
    ∧ derivedCounts exDownloadedTable = (1, 1, 0, 100) := by
  exact ⟨rfl, rfl⟩

/-! ## Claim C1 -/

/-- When the listing does not fit in one page, every iteration of the
discovery page loop receives a non-nil continuation token, so the loop
never reaches its natural exit, whatever the fuel. -/
theorem discoveryGo_stuck_fst (cfg : SyncConfig) (now : GoTime) (remote : List BlobInfo)
    (h : cfg.batchSize < remote.length) :
    ∀ (fuel : Nat) (t : List BlobState) (acc : List BlobInfo),
      (discoveryGo cfg now remote fuel t acc).1 = none := by
  intro fuel
  induction fuel with
  | zero => intro t acc; rfl
  | succ n ih =>
    intro t acc
    simp only [discoveryGo, listBlobs, if_pos h]
    exact ih _ _

/-- When the listing does not fit in one page, the blobs the discovery
loop upserts are the starting accumulator plus copies of the first page
only. -/
theorem discoveryGo_stuck_snd (cfg : SyncConfig) (now : GoTime) (remote : List BlobInfo)
    (h : cfg.batchSize < remote.length) :
    ∀ (fuel : Nat) (t : List BlobState) (acc : List BlobInfo),
      (discoveryGo cfg now remote fuel t acc).2
        = acc ++ (List.replicate fuel (remote.take cfg.batchSize)).join := by
  intro fuel
  induction fuel with
  | zero => intro t acc; simp [discoveryGo]
  | succ n ih =>
    intro t acc
    simp only [discoveryGo, listBlobs, if_pos h]
    rw [ih]
    simp [List.replicate_succ]

/-- Counting occurrences in a flattened replication. -/
theorem count_join_replicate (n : Nat) (l : List BlobInfo) (x : BlobInfo) :
    ((List.replicate n l).join).count x = n * l.count x := by
  induction n with
  | zero => simp
  | succ m ih => simp [List.replicate_succ, List.count_append, ih, Nat.succ_mul, Nat.add_comm]

/-- Claim C1 (code bug): on a remote listing that spans more than one
page (three blobs, page size two), the discovery phase never enumerates
the remote objects exactly once.  `ListBlobs` accepts no continuation
token and always returns the same first page with a non-nil token, so
for every fuel bound the page loop fails to terminate, the blob on the
second page is never upserted, and each first-page blob is upserted
once per iteration instead of exactly once. -/
theorem discovery_never_completes_multipage_listing :
    ∀ (fuel : Nat) (t : List BlobState),
      (discovery exCfg exNow exRemote3 fuel t).1 = none
      ∧ exBlob "c" ∉ (discovery exCfg exNow exRemote3 fuel t).2
      ∧ ((discovery exCfg exNow exRemote3 fuel t).2).count (exBlob "a") = fuel := by
  intro fuel t
  have hlt : exCfg.batchSize < exRemote3.length := by decide
  refine ⟨discoveryGo_stuck_fst exCfg exNow exRemote3 hlt fuel t [], ?_, ?_⟩
  · rw [discovery, discoveryGo_stuck_snd exCfg exNow exRemote3 hlt fuel t []]
    intro hmem
    rw [List.nil_append, List.mem_join] at hmem
    obtain ⟨ys, hys, hx⟩ := hmem
    rw [List.eq_of_mem_replicate hys] at hx
    revert hx
    decide
  · rw [discovery, discoveryGo_stuck_snd exCfg exNow exRemote3 hlt fuel t [],
      List.nil_append, count_join_replicate]
    have : (exRemote3.take exCfg.batchSize).count (exBlob "a") = 1 := by decide
    rw [this, Nat.mul_one]

/-! ## Claim C5 -/

/-- Updating every keyed row keeps the first matching row discoverable,
with all fields taken from the payload except the preserved first-seen
timestamp. -/
theorem find_map_upsert_key (b : BlobState) :
    ∀ (t : List BlobState) (r : BlobState),
      t.find? (fun x => x.blobName = b.blobName) = some r →
      (t.map (fun x =>
          if x.blobName = b.blobName then { b with firstSeenAt := x.firstSeenAt } else x)).find?
          (fun x => x.blobName = b.blobName)
        = some { b with firstSeenAt := r.firstSeenAt } := by
  intro t
  induction t with
  | nil => intro r hr; simp at hr
  | cons a t ih =>
    intro r hr
    by_cases ha : a.blobName = b.blobName
    · rw [List.find?_cons_of_pos _ (by simpa using ha)] at hr
      have hra : r = a := (Option.some.inj hr).symm
      subst hra
      rw [List.map_cons, if_pos ha, List.find?_cons_of_pos _ (by simp)]
    · rw [List.find?_cons_of_neg _ (by simpa using ha)] at hr
      rw [List.map_cons, if_neg ha, List.find?_cons_of_neg _ (by simpa using ha)]
      exact ih r hr

/-- Updating every keyed row leaves lookups under any other key
unchanged. -/
theorem find_map_upsert_frame (b : BlobState) (name : String) (h : name ≠ b.blobName) :
    ∀ (t : List BlobState),
      (t.map (fun x =>
          if x.blobName = b.blobName then { b with firstSeenAt := x.firstSeenAt } else x)).find?
          (fun x => x.blobName = name)
        = t.find? (fun x => x.blobName = name) := by
  intro t
  induction t with
  | nil => rfl
  | cons a t ih =>
    by_cases ha : a.blobName = b.blobName
    · have horig : ¬ (a.blobName = name) := by
        rw [ha]
        intro hc
        exact h hc.symm
      have hmapped : ¬ (({ b with firstSeenAt := a.firstSeenAt } : BlobState).blobName = name) := by
        intro hc
        exact h hc.symm
      rw [List.map_cons, if_pos ha, List.find?_cons_of_neg _ (by simpa using hmapped),
        List.find?_cons_of_neg _ (by simpa using horig)]
      exact ih
    · by_cases hp : a.blobName = name
      · rw [List.map_cons, if_neg ha, List.find?_cons_of_pos _ (by simpa using hp),
          List.find?_cons_of_pos _ (by simpa using hp)]
      · rw [List.map_cons, if_neg ha, List.find?_cons_of_neg _ (by simpa using hp),
          List.find?_cons_of_neg _ (by simpa using hp)]
        exact ih

/-- Insert case of the upsert: with no record under the key, the row is
appended unchanged. -/
theorem upsert_insert_eq (t : List BlobState) (b : BlobState)
    (h : getBlobState t b.blobName = none) :
    upsertBlobState t b = t ++ [b] := by
  rw [getBlobState, List.find?_eq_none] at h
  have hany : t.any (fun r => r.blobName = b.blobName) = false := by
    rw [Bool.eq_false_iff]
    intro hc
    obtain ⟨x, hx, hpx⟩ := List.any_eq_true.mp hc
    exact h x hx hpx
  rw [upsertBlobState, hany]
  simp

/-- Update case of the upsert: the stored record afterwards equals the
payload on every field except the preserved first-seen timestamp. -/
theorem upsert_update_lookup (t : List BlobState) (b : BlobState) (r : BlobState)
    (hr : getBlobState t b.blobName = some r) :
    getBlobState (upsertBlobState t b) b.blobName
      = some { b with firstSeenAt := r.firstSeenAt } := by
  rw [getBlobState] at hr
  have hpr := List.find?_some hr
  have hany : t.any (fun x => x.blobName = b.blobName) = true :=
    List.any_eq_true.mpr ⟨r, List.mem_of_find?_eq_some hr, hpr⟩
  rw [upsertBlobState, hany, if_pos rfl, getBlobState]
  exact find_map_upsert_key b t r hr

/-- Frame of the upsert: lookups under any other key are unchanged. -/
theorem upsert_frame_lookup (t : List BlobState) (b : BlobState) (name : String)
    (hname : name ≠ b.blobName) :
    getBlobState (upsertBlobState t b) name = getBlobState t name := by
  rw [upsertBlobState]
  by_cases hany : t.any (fun x => x.blobName = b.blobName)
  · rw [if_pos hany, getBlobState, getBlobState]
    exact find_map_upsert_frame b name hname t
  · rw [if_neg hany, getBlobState, getBlobState, List.find?_append]
    have hb : List.find? (fun x => x.blobName = name) [b] = none := by
      refine List.find?_eq_none.mpr ?_
      intro x hx
      rw [List.mem_singleton] at hx
      subst hx
      simp only [decide_eq_true_eq]
      intro hc
      exact hname hc.symm
    rw [hb, Option.or_none]

/-- Claim C5: `UpsertBlobState` is an insert-or-update keyed by the
blob name.  When no record carries the key, the record is appended
unchanged; when one does, the stored record afterwards equals the new
payload on every field except `firstSeenAt`, which keeps the stored
record's original value — so the first-seen timestamp survives every
subsequent upsert — and records under other keys are untouched. -/
theorem upsertBlobState_insert_or_update (t : List BlobState) (b : BlobState) :
    (getBlobState t b.blobName = none → upsertBlobState t b = t ++ [b])
    ∧ (∀ r, getBlobState t b.blobName = some r →
        getBlobState (upsertBlobState t b) b.blobName
          = some { b with firstSeenAt := r.firstSeenAt })
    ∧ (∀ name, name ≠ b.blobName →
        getBlobState (upsertBlobState t b) name = getBlobState t name) :=
  ⟨upsert_insert_eq t b, fun r hr => upsert_update_lookup t b r hr,
    fun name hname => upsert_frame_lookup t b name hname⟩

/-- Claim C5 witness: concrete insert, update and frame instances of
the upsert characterization — the stored first-seen timestamp survives
the update while every other field is overwritten, other keys are
untouched, and a missing key is inserted. -/
theorem upsertBlobState_insert_or_update_witness :
    (upsertBlobState [] exFresh = [] ++ [exFresh])
    ∧ getBlobState (upsertBlobState exDownloadedTable exUpsertNew) exUpsertNew.blobName
        = some { exUpsertNew with firstSeenAt := "2024-01-01T00:00:00Z" }
    ∧ getBlobState (upsertBlobState exDownloadedTable exUpsertNew) "b2"
        = getBlobState exDownloadedTable "b2" := by
  refine ⟨(upsertBlobState_insert_or_update [] exFresh).1 rfl, ?_, ?_⟩
  · exact (upsertBlobState_insert_or_update exDownloadedTable exUpsertNew).2.1
      { blobName := "a", blobPath := "a", localPath := "/out/a", sizeBytes := 100,
        contentMD5 := none, lastModified := "2024-01-01T00:00:00Z", etag := "etag-1",
        firstSeenAt := "2024-01-01T00:00:00Z", lastSyncedAt := some "2024-01-02T00:00:00Z",
        syncRunID := some 1, status := blobStatusDownloaded,
        errorMessage := some "old error" } rfl
  · exact (upsertBlobState_insert_or_update exDownloadedTable exUpsertNew).2.2 "b2" (by decide)

/-! ## Claim C10 -/

/-- Claim C10: for an object key already present in the state store,
the record a discovery pass upserts always carries nil `lastSyncedAt`,
`syncRunID` and `errorMessage` (the discovery record constructor never
sets them), and the upsert overwrites those three columns, so after
discovery they are null whatever the previous record — downloaded or
otherwise — held, including when the new status is `skipped`. -/
theorem discovery_upsert_nulls_sync_fields (cfg : SyncConfig) (now : GoTime)
    (blob : BlobInfo) (t : List BlobState) (r : BlobState)
    (h : getBlobState t blob.name = some r) :
    ∃ s, getBlobState
        (upsertBlobState t (discoveryBlobState cfg now blob (getBlobState t blob.name)))
        blob.name = some s
      ∧ s.lastSyncedAt = none ∧ s.syncRunID = none ∧ s.errorMessage = none
      ∧ s.status = discoveryStatus cfg blob (getBlobState t blob.name) := by
  have hkey : (discoveryBlobState cfg now blob (getBlobState t blob.name)).blobName
      = blob.name := rfl
  refine ⟨{ discoveryBlobState cfg now blob (getBlobState t blob.name) with
            firstSeenAt := r.firstSeenAt }, ?_, rfl, rfl, rfl, rfl⟩
  have hmain := upsert_update_lookup t
    (discoveryBlobState cfg now blob (getBlobState t blob.name)) r (by rw [hkey]; exact h)
  rw [hkey] at hmain
  exact hmain

/-- Claim C10 witness: re-discovering the key `a`, whose stored record
is `downloaded` with a synced time, an owning run and an error message,
leaves a stored record with all three fields null (and, with
skip-existing enabled and matching etag and timestamp, status
`skipped`). -/
theorem discovery_upsert_nulls_sync_fields_witness :
    ∃ s, getBlobState
        (upsertBlobState exDownloadedTable
          (discoveryBlobState exCfg exNow (exBlob "a")
            (getBlobState exDownloadedTable (exBlob "a").name)))
        (exBlob "a").name = some s
      ∧ s.lastSyncedAt = none ∧ s.syncRunID = none ∧ s.errorMessage = none
      ∧ s.status = discoveryStatus exCfg (exBlob "a")
          (getBlobState exDownloadedTable (exBlob "a").name) :=
  discovery_upsert_nulls_sync_fields exCfg exNow (exBlob "a") exDownloadedTable
    { blobName := "a", blobPath := "a", localPath := "/out/a", sizeBytes := 100,
      contentMD5 := none, lastModified := "2024-01-01T00:00:00Z", etag := "etag-1",
      firstSeenAt := "2024-01-01T00:00:00Z", lastSyncedAt := some "2024-01-02T00:00:00Z",
      syncRunID := some 1, status := blobStatusDownloaded,
      errorMessage := some "old error" } rfl

/-! ## Claim C4 -/

/-- Appending the `.tmp` suffix does not change the parent directory:
the suffix contains no path separator. -/
theorem goDir_tmpPathOf (p : String) : goDir (tmpPathOf p) = goDir p := by
  have hdata : (tmpPathOf p).data = p.data ++ tmpSuffix.data := String.data_append p tmpSuffix
  have hall : ∀ x ∈ tmpSuffix.data.reverse, decide (x ≠ '/') = true := by decide
  have hdrop : List.dropWhile (fun c => c ≠ '/') tmpSuffix.data.reverse = [] :=
    List.dropWhile_eq_nil_iff.mpr hall
  rw [goDir, goDir, dirChars, dirChars, hdata, List.reverse_append, List.dropWhile_append,
    hdrop]
  rfl

/-- The temporary path is distinct from the final path. -/
theorem tmpPathOf_ne (p : String) : tmpPathOf p ≠ p := by
  intro hc
  have hlen : (tmpPathOf p).length = p.length + 4 := String.length_append p tmpSuffix
  rw [hc] at hlen
  omega

/-- Claim C4: `downloadBlob` streams into a sibling temporary file
(`LocalPath + ".tmp"`: same parent directory, distinguishing suffix);
the only operation of its filesystem trace that mutates the final path
is the rename of that temporary file over it; on every failure the
final path's content is left exactly as it was, and on every failure
after the temporary file was created the temporary file is removed; on
success the final path holds the streamed content, committed by the
rename, and the temporary file is gone.  Hence no state in which a
partial artifact sits at the final path is ever produced. -/
theorem downloadBlob_atomic_commit (cfg : SyncConfig) (env : DlEnv) (blob : BlobState)
    (st0 : FsState) :
    (goDir (tmpPathOf blob.localPath) = goDir blob.localPath
      ∧ tmpPathOf blob.localPath ≠ blob.localPath)
    ∧ (∀ op ∈ (downloadBlob cfg env blob).2, mutatesFinal blob.localPath op = true →
        op = FsOp.renameFile (tmpPathOf blob.localPath) blob.localPath)
    ∧ (∀ e, (downloadBlob cfg env blob).1 = .error e →
        (applyOps (tmpPathOf blob.localPath) blob.localPath st0
          (downloadBlob cfg env blob).2).final = st0.final)
    ∧ (∀ e, (downloadBlob cfg env blob).1 = .error e → env.mkdirOk = true →
        env.createOk = true →
        (applyOps (tmpPathOf blob.localPath) blob.localPath st0
          (downloadBlob cfg env blob).2).tmp = none)
    ∧ ((downloadBlob cfg env blob).1 = .ok () →
        (applyOps (tmpPathOf blob.localPath) blob.localPath st0
            (downloadBlob cfg env blob).2).final = some env.content
          ∧ (applyOps (tmpPathOf blob.localPath) blob.localPath st0
              (downloadBlob cfg env blob).2).tmp = none) := by
  have hne : tmpPathOf blob.localPath ≠ blob.localPath := tmpPathOf_ne blob.localPath
  obtain ⟨mk, cr, dle, content, dg, rn⟩ := env
  refine ⟨⟨goDir_tmpPathOf blob.localPath, hne⟩, ?_, ?_, ?_, ?_⟩ <;>
    cases mk <;> cases cr <;> rcases dle with _ | e0 <;>
      rcases hmd : blob.contentMD5 with _ | ref <;>
        cases hv : cfg.verifyChecksums <;> cases rn <;>
          simp_all [downloadBlob, applyOps, applyOp, mutatesFinal, hne] <;>
            by_cases hdg : dg content = ref <;>
              simp_all [downloadBlob, applyOps, applyOp, mutatesFinal, hne]

/-- Claim C4 witness: concrete runs of the download against a
filesystem whose final path holds `old`.  The successful run commits
the streamed content and clears the temporary file; the failed run
leaves `old` at the final path and clears the temporary file. -/
theorem downloadBlob_atomic_commit_witness :
    ((applyOps (tmpPathOf exPending.localPath) exPending.localPath
        { tmp := none, final := some "old" }
        (downloadBlob exCfg dlEnvOk exPending).2).final = some dlEnvOk.content
      ∧ (applyOps (tmpPathOf exPending.localPath) exPending.localPath
          { tmp := none, final := some "old" }
          (downloadBlob exCfg dlEnvOk exPending).2).tmp = none)
    ∧ (applyOps (tmpPathOf exPending.localPath) exPending.localPath
        { tmp := none, final := some "old" }
        (downloadBlob exCfg dlEnvFail exPending).2).final = some "old"
    ∧ (applyOps (tmpPathOf exPending.localPath) exPending.localPath
        { tmp := none, final := some "old" }
        (downloadBlob exCfg dlEnvFail exPending).2).tmp = none := by
  refine ⟨(downloadBlob_atomic_commit exCfg dlEnvOk exPending
      { tmp := none, final := some "old" }).2.2.2.2 rfl,
    (downloadBlob_atomic_commit exCfg dlEnvFail exPending
      { tmp := none, final := some "old" }).2.2.1 ("download failed: connection reset") rfl,
    (downloadBlob_atomic_commit exCfg dlEnvFail exPending
      { tmp := none, final := some "old" }).2.2.2.1 ("download failed: connection reset")
        rfl rfl rfl⟩

/-! ## Claim C7 -/

/-- Digit characters decode back to their value. -/
theorem digitChar_decode (d : Nat) (h : d < 10) : (Nat.digitChar d).toNat - 48 = d := by
  interval_cases d <;> decide

/-- With enough fuel, the decimal rendering decodes back to the
number. -/
theorem digitsToNat_natDigitsAux :
    ∀ (fuel n : Nat), n < fuel → digitsToNat (natDigitsAux fuel n) = n := by
  intro fuel
  induction fuel with
  | zero => intro n hn; omega
  | succ f ih =>
    intro n hn
    by_cases h10 : n < 10
    · rw [natDigitsAux, if_pos h10, digitsToNat, List.foldl_cons, List.foldl_nil]
      have := digitChar_decode n h10
      omega
    · rw [natDigitsAux, if_neg h10, digitsToNat, List.foldl_append, List.foldl_cons,
        List.foldl_nil]
      have hdiv : n / 10 < f := by
        have h1 : n / 10 < n := Nat.div_lt_self (by omega) (by omega)
        omega
      have hrec := ih (n / 10) hdiv
      rw [digitsToNat] at hrec
      rw [hrec]
      have hmod : n % 10 < 10 := Nat.mod_lt n (by omega)
      have := digitChar_decode (n % 10) hmod
      have := Nat.div_add_mod n 10
      omega

/-- The decimal rendering decodes back to the number. -/
theorem digitsToNat_natDigits (n : Nat) : digitsToNat (natDigits n) = n :=
  digitsToNat_natDigitsAux (n + 1) n (Nat.lt_succ_self n)

/-- Leading zeros do not change the decoded value. -/
theorem digitsToNat_replicate_zero :
    ∀ (z : Nat) (ds : List Char),
      digitsToNat (List.replicate z '0' ++ ds) = digitsToNat ds := by
  intro z
  induction z with
  | zero => intro ds; rfl
  | succ m ih =>
    intro ds
    rw [List.replicate_succ, List.cons_append, digitsToNat, List.foldl_cons]
    have h0 : (0 : Nat) * 10 + ('0'.toNat - 48) = 0 := by decide
    rw [h0]
    exact ih ds

/-- The zero-padded rendering decodes back to the number. -/
theorem digitsToNat_pad4 (n : Nat) : digitsToNat (pad4 n).data = n := by
  rw [pad4]
  show digitsToNat (List.replicate (4 - (natDigits n).length) '0' ++ natDigits n) = n
  rw [digitsToNat_replicate_zero, digitsToNat_natDigits]

/-- Bucket directory names are injective in the bucket index. -/
theorem seqFolderName_inj (m n : Nat) (h : seqFolderName m = seqFolderName n) : m = n := by
  have hdata : (seqFolderName m).data = (seqFolderName n).data := by rw [h]
  rw [seqFolderName, seqFolderName, String.data_append, String.data_append] at hdata
  have hpad : (pad4 m).data = (pad4 n).data := List.append_cancel_left hdata
  have hm := digitsToNat_pad4 m
  have hn := digitsToNat_pad4 n
  rw [← hm, ← hn, hpad]

/-- Bucket directory names are never the empty string. -/
theorem seqFolderName_ne_empty (q : Nat) : seqFolderName q ≠ "" := by
  intro hc
  have hdata : (seqFolderName q).data = [] := by rw [hc]
  rw [seqFolderName, String.data_append] at hdata
  simp at hdata

/-- Reading the open bucket's count. -/
theorem lookupCount_countsFor_self (C q r : Nat) :
    lookupCount (countsFor C q r) (seqFolderName q) = r := by
  rw [lookupCount, countsFor, List.find?_append]
  have hfull : List.find? (fun p => p.1 = seqFolderName q)
      ((List.range q).map (fun j => (seqFolderName j, C))) = none := by
    refine List.find?_eq_none.mpr ?_
    intro x hx
    obtain ⟨j, hj, rfl⟩ := List.mem_map.mp hx
    simp only [decide_eq_true_eq]
    intro hc
    have := seqFolderName_inj j q hc
    rw [List.mem_range] at hj
    omega
  rw [hfull]
  simp [List.find?_cons]

/-- The next bucket's name has no count yet. -/
theorem lookupCount_countsFor_next (C q r : Nat) :
    lookupCount (countsFor C q r) (seqFolderName (q + 1)) = 0 := by
  rw [lookupCount, countsFor, List.find?_append]
  have hfull : List.find? (fun p => p.1 = seqFolderName (q + 1))
      ((List.range q).map (fun j => (seqFolderName j, C))) = none := by
    refine List.find?_eq_none.mpr ?_
    intro x hx
    obtain ⟨j, hj, rfl⟩ := List.mem_map.mp hx
    simp only [decide_eq_true_eq]
    intro hc
    have := seqFolderName_inj j (q + 1) hc
    rw [List.mem_range] at hj
    omega
  have hlast : List.find? (fun p => p.1 = seqFolderName (q + 1))
      [(seqFolderName q, r)] = none := by
    refine List.find?_eq_none.mpr ?_
    intro x hx
    rw [List.mem_singleton] at hx
    subst hx
    simp only [decide_eq_true_eq]
    intro hc
    have := seqFolderName_inj q (q + 1) hc
    omega
  rw [hfull, hlast]
  rfl

/-- No bucket of the count map carries the next bucket's name. -/
theorem countsFor_no_next_key (C q r : Nat) :
    (countsFor C q r).any (fun p => p.1 = seqFolderName (q + 1)) = false := by
  rw [Bool.eq_false_iff]
  intro hc
  obtain ⟨x, hx, hpx⟩ := List.any_eq_true.mp hc
  rw [countsFor, List.mem_append] at hx
  simp only [decide_eq_true_eq] at hpx
  rcases hx with hx | hx
  · obtain ⟨j, hj, rfl⟩ := List.mem_map.mp hx
    have := seqFolderName_inj j (q + 1) hpx
    rw [List.mem_range] at hj
    omega
  · rw [List.mem_singleton] at hx
    subst hx
    have := seqFolderName_inj q (q + 1) hpx
    omega

/-- Writing the open bucket's count rewrites only its entry. -/
theorem setCount_countsFor_self (C q r v : Nat) :
    setCount (countsFor C q r) (seqFolderName q) v = countsFor C q v := by
  have hany : (countsFor C q r).any (fun p => p.1 = seqFolderName q) = true := by
    refine List.any_eq_true.mpr ⟨(seqFolderName q, r), ?_, by simp⟩
    rw [countsFor, List.mem_append]
    right
    exact List.mem_singleton.mpr rfl
  rw [setCount, hany, if_pos rfl, countsFor, countsFor, List.map_append]
  congr 1
  · rw [List.map_map]
    refine List.map_congr_left ?_
    intro j hj
    rw [List.mem_range] at hj
    have hne : seqFolderName j ≠ seqFolderName q := by
      intro hc
      have := seqFolderName_inj j q hc
      omega
    simp [Function.comp, hne]
  · simp

/-- Registering the next bucket appends a fresh entry. -/
theorem setCount_countsFor_append (C q v : Nat) :
    setCount (countsFor C q C) (seqFolderName (q + 1)) v = countsFor C (q + 1) v := by
  rw [setCount, countsFor_no_next_key]
  simp only [Bool.false_eq_true, if_false]
  rw [countsFor, countsFor, List.range_succ, List.map_append, List.append_assoc]
  simp

/-- A fresh organizer's first resolution opens bucket 0. -/
theorem resolveSeq_fresh (cfg : OrgConfig) (base : String) :
    resolveSeq (orgNew cfg base) = (seqFolderName 0, seqStateAt cfg base 0 1) := by
  have hg : getSequentialFolder (orgNew cfg base)
      = (seqFolderName 0,
         { cfg := cfg, basePath := base, folderCounts := [],
           currentFolder := seqFolderName 0, folderIndex := 1 }) := by
    have hc : ((orgNew cfg base).currentFolder = ""
        ∨ lookupCount (orgNew cfg base).folderCounts (orgNew cfg base).currentFolder
          ≥ (orgNew cfg base).cfg.maxFilesPerFolder) := Or.inl rfl
    rw [getSequentialFolder, if_pos hc]
    rfl
  simp only [resolveSeq, hg]
  rfl

/-- Resolution inside a bucket that is still below capacity stays in
the bucket and raises its count. -/
theorem resolveSeq_stay (cfg : OrgConfig) (base : String) (q r : Nat)
    (h : r < cfg.maxFilesPerFolder) :
    resolveSeq (seqStateAt cfg base q r) = (seqFolderName q, seqStateAt cfg base q (r + 1)) := by
  have hcond : ¬ ((seqStateAt cfg base q r).currentFolder = ""
      ∨ lookupCount (seqStateAt cfg base q r).folderCounts
          (seqStateAt cfg base q r).currentFolder
        ≥ (seqStateAt cfg base q r).cfg.maxFilesPerFolder) := by
    have hfc : (seqStateAt cfg base q r).folderCounts
        = countsFor cfg.maxFilesPerFolder q r := rfl
    have hcf : (seqStateAt cfg base q r).currentFolder = seqFolderName q := rfl
    have hcc : (seqStateAt cfg base q r).cfg = cfg := rfl
    rw [hfc, hcf, hcc, lookupCount_countsFor_self]
    rintro (hc | hc)
    · exact seqFolderName_ne_empty q hc
    · omega
  have hg : getSequentialFolder (seqStateAt cfg base q r)
      = (seqFolderName q, seqStateAt cfg base q r) := by
    rw [getSequentialFolder, if_neg hcond]
    rfl
  simp only [resolveSeq, hg]
  have htrack : trackFile (seqStateAt cfg base q r).folderCounts (seqFolderName q)
      = countsFor cfg.maxFilesPerFolder q (r + 1) := by
    have hfc : (seqStateAt cfg base q r).folderCounts
        = countsFor cfg.maxFilesPerFolder q r := rfl
    rw [trackFile, hfc, lookupCount_countsFor_self, setCount_countsFor_self]
  rw [htrack]
  rfl

/-- Resolution when the current bucket has just reached capacity opens
the next bucket. -/
theorem resolveSeq_advance (cfg : OrgConfig) (base : String) (q : Nat) :
    resolveSeq (seqStateAt cfg base q cfg.maxFilesPerFolder)
      = (seqFolderName (q + 1), seqStateAt cfg base (q + 1) 1) := by
  have hcond : ((seqStateAt cfg base q cfg.maxFilesPerFolder).currentFolder = ""
      ∨ lookupCount (seqStateAt cfg base q cfg.maxFilesPerFolder).folderCounts
          (seqStateAt cfg base q cfg.maxFilesPerFolder).currentFolder
        ≥ (seqStateAt cfg base q cfg.maxFilesPerFolder).cfg.maxFilesPerFolder) := by
    right
    have hfc : (seqStateAt cfg base q cfg.maxFilesPerFolder).folderCounts
        = countsFor cfg.maxFilesPerFolder q cfg.maxFilesPerFolder := rfl
    have hcf : (seqStateAt cfg base q cfg.maxFilesPerFolder).currentFolder
        = seqFolderName q := rfl
    have hcc : (seqStateAt cfg base q cfg.maxFilesPerFolder).cfg = cfg := rfl
    rw [hfc, hcf, hcc, lookupCount_countsFor_self]
  have hg : getSequentialFolder (seqStateAt cfg base q cfg.maxFilesPerFolder)
      = (seqFolderName (q + 1),
         { cfg := cfg, basePath := base,
           folderCounts := countsFor cfg.maxFilesPerFolder q cfg.maxFilesPerFolder,
           currentFolder := seqFolderName (q + 1), folderIndex := q + 2 }) := by
    rw [getSequentialFolder, if_pos hcond]
    rfl
  simp only [resolveSeq, hg]
  have htrack : trackFile (countsFor cfg.maxFilesPerFolder q cfg.maxFilesPerFolder)
      (seqFolderName (q + 1)) = countsFor cfg.maxFilesPerFolder (q + 1) 1 := by
    rw [trackFile, lookupCount_countsFor_next, setCount_countsFor_append]
  rw [htrack]
  rfl

/-- Successor division and remainder when the remainder does not wrap. -/
theorem succ_div_mod_stay (C s : Nat) (hC : 0 < C) (h : s % C + 1 < C) :
    (s + 1) / C = s / C ∧ (s + 1) % C = s % C + 1 := by
  have hdm := Nat.div_add_mod s C
  exact (Nat.div_mod_unique hC).mpr ⟨by omega, h⟩

/-- Successor division and remainder when the remainder wraps. -/
theorem succ_div_mod_wrap (C s : Nat) (hC : 0 < C) (h : s % C + 1 = C) :
    (s + 1) / C = s / C + 1 ∧ (s + 1) % C = 0 := by
  have hdm := Nat.div_add_mod s C
  have hmul : C * (s / C + 1) = C * (s / C) + C := by ring
  exact (Nat.div_mod_unique hC).mpr ⟨by omega, hC⟩

/-- One resolution from the state after `t ≥ 1` placements goes to
bucket `t / C` and yields the state after `t + 1` placements. -/
theorem resolveSeq_stepT (cfg : OrgConfig) (base : String)
    (hC : 0 < cfg.maxFilesPerFolder) (t : Nat) (ht : 1 ≤ t) :
    resolveSeq (seqStateAfter cfg base t)
      = (seqFolderName (t / cfg.maxFilesPerFolder), seqStateAfter cfg base (t + 1)) := by
  obtain ⟨s, rfl⟩ : ∃ s, t = s + 1 := ⟨t - 1, by omega⟩
  have hform : seqStateAfter cfg base (s + 1)
      = seqStateAt cfg base (s / cfg.maxFilesPerFolder)
          (s % cfg.maxFilesPerFolder + 1) := rfl
  have hform2 : seqStateAfter cfg base (s + 1 + 1)
      = seqStateAt cfg base ((s + 1) / cfg.maxFilesPerFolder)
          ((s + 1) % cfg.maxFilesPerFolder + 1) := rfl
  by_cases hcase : s % cfg.maxFilesPerFolder + 1 < cfg.maxFilesPerFolder
  · obtain ⟨hdiv, hmod⟩ := succ_div_mod_stay cfg.maxFilesPerFolder s hC hcase
    rw [hform, resolveSeq_stay cfg base _ _ hcase, hform2, hdiv, hmod]
  · have hlt : s % cfg.maxFilesPerFolder < cfg.maxFilesPerFolder := Nat.mod_lt s hC
    have heq : s % cfg.maxFilesPerFolder + 1 = cfg.maxFilesPerFolder := by omega
    obtain ⟨hdiv, hmod⟩ := succ_div_mod_wrap cfg.maxFilesPerFolder s hC heq
    rw [hform, heq, resolveSeq_advance, hform2, hdiv, hmod]

/-- Run of `n` resolutions from the state after `t ≥ 1` placements:
resolution `i` of the run goes to bucket `(t + i) / C`. -/
theorem seqAssignments_from (cfg : OrgConfig) (base : String)
    (hC : 0 < cfg.maxFilesPerFolder) :
    ∀ (n t : Nat), 1 ≤ t →
      seqAssignments (seqStateAfter cfg base t) n
        = ((List.range n).map (fun i => seqFolderName ((t + i) / cfg.maxFilesPerFolder)),
           seqStateAfter cfg base (t + n)) := by
  intro n
  induction n with
  | zero => intro t ht; simp [seqAssignments]
  | succ m ih =>
    intro t ht
    simp only [seqAssignments]
    rw [resolveSeq_stepT cfg base hC t ht, ih (t + 1) (by omega)]
    refine Prod.ext ?_ ?_
    · show seqFolderName (t / cfg.maxFilesPerFolder)
          :: (List.range m).map (fun i => seqFolderName ((t + 1 + i) / cfg.maxFilesPerFolder))
        = (List.range (m + 1)).map (fun i => seqFolderName ((t + i) / cfg.maxFilesPerFolder))
      rw [List.range_succ_eq_map, List.map_cons, List.map_map]
      refine congrArg₂ List.cons (by rw [Nat.add_zero]) ?_
      refine List.map_congr_left ?_
      intro i _
      show seqFolderName ((t + 1 + i) / cfg.maxFilesPerFolder)
          = seqFolderName ((t + (i + 1)) / cfg.maxFilesPerFolder)
      rw [show t + 1 + i = t + (i + 1) by omega]
    · show seqStateAfter cfg base (t + 1 + m) = seqStateAfter cfg base (t + (m + 1))
      rw [show t + 1 + m = t + (m + 1) by omega]

/-- Claim C7: the sequential organizer started fresh with capacity
`C > 0` places the `i`-th resolution (0-indexed) into bucket `i / C`;
in particular, with capacity 3 and 10 sequential insertions the bucket
assignment is `[0,0,0,1,1,1,2,2,2,3]` (the repository's Scenario D). -/
theorem sequential_assignment_formula (cfg : OrgConfig) (base : String)
    (hC : 0 < cfg.maxFilesPerFolder) :
    (∀ n, (seqAssignments (orgNew cfg base) n).1
        = (List.range n).map (fun i => seqFolderName (i / cfg.maxFilesPerFolder)))
    ∧ (seqAssignments (orgNew orgCfg3 "/data") 10).1
        = List.map seqFolderName [0, 0, 0, 1, 1, 1, 2, 2, 2, 3] := by
  constructor
  · intro n
    cases n with
    | zero => rfl
    | succ m =>
      simp only [seqAssignments]
      rw [resolveSeq_fresh]
      have h1 : seqStateAt cfg base 0 1 = seqStateAfter cfg base 1 := by
        rw [seqStateAfter]
        have : (1 : Nat) - 1 = 0 := rfl
        rw [this, Nat.zero_div, Nat.zero_mod]
      rw [h1, seqAssignments_from cfg base hC m 1 (by omega)]
      show seqFolderName 0
          :: (List.range m).map (fun i => seqFolderName ((1 + i) / cfg.maxFilesPerFolder))
        = (List.range (m + 1)).map (fun i => seqFolderName (i / cfg.maxFilesPerFolder))
      rw [List.range_succ_eq_map, List.map_cons, List.map_map]
      refine congrArg₂ List.cons (by rw [Nat.zero_div]) ?_
      refine List.map_congr_left ?_
      intro i _
      show seqFolderName ((1 + i) / cfg.maxFilesPerFolder)
          = seqFolderName ((i + 1) / cfg.maxFilesPerFolder)
      rw [Nat.add_comm 1 i]
  · decide

/-- Claim C7 witness: the capacity-3 instance — Scenario D holds, and
the general formula instantiated at capacity 3, 10 insertions. -/
theorem sequential_assignment_formula_witness :
    (seqAssignments (orgNew orgCfg3 "/data") 10).1
        = (List.range 10).map (fun i => seqFolderName (i / orgCfg3.maxFilesPerFolder)) :=
  (sequential_assignment_formula orgCfg3 "/data" (by decide)).1 10

/-! ## Worker retry-loop analysis (claims C3, C8, C9) -/

/-- The disk-break test of the retry loop is the negated pre-flight
guard. -/
theorem diskBreak_eq_not_diskOk (cfg : SyncConfig) (a : AttemptEnv) :
    (match a.usage with
      | some u => decide (u ≥ cfg.diskStopPercent)
      | none => false) = !(diskOk cfg a) := by
  rcases hu : a.usage with _ | u
  · simp [diskOk, hu]
  · simp only [diskOk, hu]
    rcases Nat.lt_or_ge u cfg.diskStopPercent with h | h
    · have h1 : decide (u ≥ cfg.diskStopPercent) = false := decide_eq_false (by omega)
      have h2 : decide (u < cfg.diskStopPercent) = true := decide_eq_true h
      rw [h1, h2]
      rfl
    · have h1 : decide (u ≥ cfg.diskStopPercent) = true := decide_eq_true h
      have h2 : decide (u < cfg.diskStopPercent) = false := decide_eq_false (by omega)
      rw [h1, h2]
      rfl

/-- Loop iteration with a breached usage reading: the disk-exhaustion
error becomes the last error and the loop breaks to the failure tail,
recording nothing. -/
theorem processGo_break (cfg : SyncConfig) (runId : Int) (now : GoTime)
    (env : Nat → AttemptEnv) (blob : BlobState) (r a : Nat) (le : Option String)
    (h : diskOk cfg (env a) = false) :
    processGo cfg runId now env blob (r + 1) a le
      = ((if a > 0 then [WorkerEv.sleep (baseDelay * 2 ^ (a - 1))] else [])
          ++ [WorkerEv.upsert (failedRec blob (diskMsgAt cfg env a))],
         failedRec blob (diskMsgAt cfg env a)) := by
  rw [processGo, diskBreak_eq_not_diskOk, h]
  simp [finishFailed, failedRec, diskMsgAt]

/-- Loop iteration with a healthy reading and a successful download:
the record is upserted as downloaded and the loop returns. -/
theorem processGo_dlnone (cfg : SyncConfig) (runId : Int) (now : GoTime)
    (env : Nat → AttemptEnv) (blob : BlobState) (r a : Nat) (le : Option String)
    (h : diskOk cfg (env a) = true) (hdl : (env a).dl = none) :
    processGo cfg runId now env blob (r + 1) a le
      = ((if a > 0 then [WorkerEv.sleep (baseDelay * 2 ^ (a - 1))] else [])
          ++ [WorkerEv.download blob.blobName a, WorkerEv.upsert (dledRec blob runId now)],
         dledRec blob runId now) := by
  rw [processGo, diskBreak_eq_not_diskOk, h, hdl]
  simp [dledRec]

/-- Loop iteration with a healthy reading and a non-retryable download
failure: one error-log entry with the attempt index, then the failure
tail. -/
theorem processGo_fail_stop (cfg : SyncConfig) (runId : Int) (now : GoTime)
    (env : Nat → AttemptEnv) (blob : BlobState) (r a : Nat) (le : Option String)
    (e : String) (h : diskOk cfg (env a) = true) (hdl : (env a).dl = some e)
    (hr : isRetryable (some e) = false) :
    processGo cfg runId now env blob (r + 1) a le
      = ((if a > 0 then [WorkerEv.sleep (baseDelay * 2 ^ (a - 1))] else [])
          ++ [WorkerEv.download blob.blobName a,
              WorkerEv.recordError (errRow runId blob e a),
              WorkerEv.upsert (failedRec blob e)],
         failedRec blob e) := by
  rw [processGo, diskBreak_eq_not_diskOk, h, hdl]
  simp [hr, finishFailed, failedRec, errRow]

/-- Loop iteration with a healthy reading and a retryable download
failure: one error-log entry with the attempt index, then the loop
continues at the next attempt. -/
theorem processGo_fail_retry (cfg : SyncConfig) (runId : Int) (now : GoTime)
    (env : Nat → AttemptEnv) (blob : BlobState) (r a : Nat) (le : Option String)
    (e : String) (h : diskOk cfg (env a) = true) (hdl : (env a).dl = some e)
    (hr : isRetryable (some e) = true) :
    processGo cfg runId now env blob (r + 1) a le
      = ((if a > 0 then [WorkerEv.sleep (baseDelay * 2 ^ (a - 1))] else [])
          ++ [WorkerEv.download blob.blobName a,
              WorkerEv.recordError (errRow runId blob e a)]
          ++ (processGo cfg runId now env blob r (a + 1) (some e)).1,
         (processGo cfg runId now env blob r (a + 1) (some e)).2) := by
  rw [processGo, diskBreak_eq_not_diskOk, h, hdl]
  simp [hr, errRow, List.append_assoc]

/-- Exhausted loop budget: the failure tail with the threaded last
error. -/
theorem processGo_zero (cfg : SyncConfig) (runId : Int) (now : GoTime)
    (env : Nat → AttemptEnv) (blob : BlobState) (a : Nat) (le : Option String) :
    processGo cfg runId now env blob 0 a le
      = ([WorkerEv.upsert { blob with status := blobStatusFailed, errorMessage := le }],
         { blob with status := blobStatusFailed, errorMessage := le }) := by
  rw [processGo]
  rfl

/-- Exhaustive shape of a `processBlob` run: the nine reachable
outcome traces of the three-attempt retry loop, in program order. -/
theorem processBlob_shape (cfg : SyncConfig) (runId : Int) (now : GoTime)
    (env : Nat → AttemptEnv) (blob : BlobState) :
    (diskOk cfg (env 0) = false
      ∧ processBlob cfg runId now env blob
        = ([WorkerEv.upsert (failedRec blob (diskMsgAt cfg env 0))],
           failedRec blob (diskMsgAt cfg env 0)))
    ∨ (diskOk cfg (env 0) = true ∧ (env 0).dl = none
      ∧ processBlob cfg runId now env blob
        = ([WorkerEv.download blob.blobName 0, WorkerEv.upsert (dledRec blob runId now)],
           dledRec blob runId now))
    ∨ (∃ e0, diskOk cfg (env 0) = true ∧ (env 0).dl = some e0
        ∧ isRetryable (some e0) = false
        ∧ processBlob cfg runId now env blob
          = ([WorkerEv.download blob.blobName 0,
              WorkerEv.recordError (errRow runId blob e0 0),
              WorkerEv.upsert (failedRec blob e0)], failedRec blob e0))
    ∨ (∃ e0, diskOk cfg (env 0) = true ∧ (env 0).dl = some e0
        ∧ isRetryable (some e0) = true ∧ diskOk cfg (env 1) = false
        ∧ processBlob cfg runId now env blob
          = ([WorkerEv.download blob.blobName 0,
              WorkerEv.recordError (errRow runId blob e0 0),
              WorkerEv.sleep (baseDelay * 2 ^ 0),
              WorkerEv.upsert (failedRec blob (diskMsgAt cfg env 1))],
             failedRec blob (diskMsgAt cfg env 1)))
    ∨ (∃ e0, diskOk cfg (env 0) = true ∧ (env 0).dl = some e0
        ∧ isRetryable (some e0) = true ∧ diskOk cfg (env 1) = true ∧ (env 1).dl = none
        ∧ processBlob cfg runId now env blob
          = ([WorkerEv.download blob.blobName 0,
              WorkerEv.recordError (errRow runId blob e0 0),
              WorkerEv.sleep (baseDelay * 2 ^ 0),
              WorkerEv.download blob.blobName 1,
              WorkerEv.upsert (dledRec blob runId now)], dledRec blob runId now))
    ∨ (∃ e0 e1, diskOk cfg (env 0) = true ∧ (env 0).dl = some e0
        ∧ isRetryable (some e0) = true ∧ diskOk cfg (env 1) = true ∧ (env 1).dl = some e1
        ∧ isRetryable (some e1) = false
        ∧ processBlob cfg runId now env blob
          = ([WorkerEv.download blob.blobName 0,
              WorkerEv.recordError (errRow runId blob e0 0),
              WorkerEv.sleep (baseDelay * 2 ^ 0),
              WorkerEv.download blob.blobName 1,
              WorkerEv.recordError (errRow runId blob e1 1),
              WorkerEv.upsert (failedRec blob e1)], failedRec blob e1))
    ∨ (∃ e0 e1, diskOk cfg (env 0) = true ∧ (env 0).dl = some e0
        ∧ isRetryable (some e0) = true ∧ diskOk cfg (env 1) = true ∧ (env 1).dl = some e1
        ∧ isRetryable (some e1) = true ∧ diskOk cfg (env 2) = false
        ∧ processBlob cfg runId now env blob
          = ([WorkerEv.download blob.blobName 0,
              WorkerEv.recordError (errRow runId blob e0 0),
              WorkerEv.sleep (baseDelay * 2 ^ 0),
              WorkerEv.download blob.blobName 1,
              WorkerEv.recordError (errRow runId blob e1 1),
              WorkerEv.sleep (baseDelay * 2 ^ 1),
              WorkerEv.upsert (failedRec blob (diskMsgAt cfg env 2))],
             failedRec blob (diskMsgAt cfg env 2)))
    ∨ (∃ e0 e1, diskOk cfg (env 0) = true ∧ (env 0).dl = some e0
        ∧ isRetryable (some e0) = true ∧ diskOk cfg (env 1) = true ∧ (env 1).dl = some e1
        ∧ isRetryable (some e1) = true ∧ diskOk cfg (env 2) = true ∧ (env 2).dl = none
        ∧ processBlob cfg runId now env blob
          = ([WorkerEv.download blob.blobName 0,
              WorkerEv.recordError (errRow runId blob e0 0),
              WorkerEv.sleep (baseDelay * 2 ^ 0),
              WorkerEv.download blob.blobName 1,
              WorkerEv.recordError (errRow runId blob e1 1),
              WorkerEv.sleep (baseDelay * 2 ^ 1),
              WorkerEv.download blob.blobName 2,
              WorkerEv.upsert (dledRec blob runId now)], dledRec blob runId now))
    ∨ (∃ e0 e1 e2, diskOk cfg (env 0) = true ∧ (env 0).dl = some e0
        ∧ isRetryable (some e0) = true ∧ diskOk cfg (env 1) = true ∧ (env 1).dl = some e1
        ∧ isRetryable (some e1) = true ∧ diskOk cfg (env 2) = true ∧ (env 2).dl = some e2
        ∧ processBlob cfg runId now env blob
          = ([WorkerEv.download blob.blobName 0,
              WorkerEv.recordError (errRow runId blob e0 0),
              WorkerEv.sleep (baseDelay * 2 ^ 0),
              WorkerEv.download blob.blobName 1,
              WorkerEv.recordError (errRow runId blob e1 1),
              WorkerEv.sleep (baseDelay * 2 ^ 1),
              WorkerEv.download blob.blobName 2,
              WorkerEv.recordError (errRow runId blob e2 2),
              WorkerEv.upsert (failedRec blob e2)], failedRec blob e2)) := by
  have hPB : processBlob cfg runId now env blob
      = processGo cfg runId now env blob (2 + 1) 0 none := rfl
  cases h0 : diskOk cfg (env 0) with
  | false =>
    refine Or.inl ⟨rfl, ?_⟩
    rw [hPB, processGo_break cfg runId now env blob 2 0 none h0]
    simp
  | true =>
    rcases hdl0 : (env 0).dl with _ | e0
    · refine Or.inr (Or.inl ⟨rfl, rfl, ?_⟩)
      rw [hPB, processGo_dlnone cfg runId now env blob 2 0 none h0 hdl0]
      simp
    · cases hr0 : isRetryable (some e0) with
      | false =>
        refine Or.inr (Or.inr (Or.inl ⟨e0, rfl, rfl, hr0, ?_⟩))
        rw [hPB, processGo_fail_stop cfg runId now env blob 2 0 none e0 h0 hdl0 hr0]
        simp
      | true =>
        have hstep0 := processGo_fail_retry cfg runId now env blob 2 0 none e0 h0 hdl0 hr0
        cases h1 : diskOk cfg (env 1) with
        | false =>
          refine Or.inr (Or.inr (Or.inr (Or.inl ⟨e0, rfl, rfl, hr0, rfl, ?_⟩)))
          have hstep1 : processGo cfg runId now env blob 2 (0 + 1) (some e0)
              = ([WorkerEv.sleep (baseDelay * 2 ^ 0),
                  WorkerEv.upsert (failedRec blob (diskMsgAt cfg env 1))],
                 failedRec blob (diskMsgAt cfg env 1)) := by
            have := processGo_break cfg runId now env blob 1 1 (some e0) h1
            simpa using this
          rw [hPB, hstep0, hstep1]
          simp
        | true =>
          rcases hdl1 : (env 1).dl with _ | e1
          · refine Or.inr (Or.inr (Or.inr (Or.inr (Or.inl ⟨e0, rfl, rfl, hr0, rfl, rfl, ?_⟩))))
            have hstep1 : processGo cfg runId now env blob 2 (0 + 1) (some e0)
                = ([WorkerEv.sleep (baseDelay * 2 ^ 0),
                    WorkerEv.download blob.blobName 1,
                    WorkerEv.upsert (dledRec blob runId now)], dledRec blob runId now) := by
              have := processGo_dlnone cfg runId now env blob 1 1 (some e0) h1 hdl1
              simpa using this
            rw [hPB, hstep0, hstep1]
            simp
          · cases hr1 : isRetryable (some e1) with
            | false =>
              refine Or.inr (Or.inr (Or.inr (Or.inr (Or.inr (Or.inl
                ⟨e0, e1, rfl, rfl, hr0, rfl, rfl, hr1, ?_⟩)))))
              have hstep1 : processGo cfg runId now env blob 2 (0 + 1) (some e0)
                  = ([WorkerEv.sleep (baseDelay * 2 ^ 0),
                      WorkerEv.download blob.blobName 1,
                      WorkerEv.recordError (errRow runId blob e1 1),
                      WorkerEv.upsert (failedRec blob e1)], failedRec blob e1) := by
                have := processGo_fail_stop cfg runId now env blob 1 1 (some e0) e1 h1 hdl1 hr1
                simpa using this
              rw [hPB, hstep0, hstep1]
              simp
            | true =>
              have hstep1 : processGo cfg runId now env blob 2 (0 + 1) (some e0)
                  = ([WorkerEv.sleep (baseDelay * 2 ^ 0),
                      WorkerEv.download blob.blobName 1,
                      WorkerEv.recordError (errRow runId blob e1 1)]
                      ++ (processGo cfg runId now env blob 1 (1 + 1) (some e1)).1,
                     (processGo cfg runId now env blob 1 (1 + 1) (some e1)).2) := by
                have := processGo_fail_retry cfg runId now env blob 1 1 (some e0) e1 h1 hdl1 hr1
                simpa using this
              cases h2 : diskOk cfg (env 2) with
              | false =>
                refine Or.inr (Or.inr (Or.inr (Or.inr (Or.inr (Or.inr (Or.inl
                  ⟨e0, e1, rfl, rfl, hr0, rfl, rfl, hr1, rfl, ?_⟩))))))
                have hstep2 : processGo cfg runId now env blob 1 (1 + 1) (some e1)
                    = ([WorkerEv.sleep (baseDelay * 2 ^ 1),
                        WorkerEv.upsert (failedRec blob (diskMsgAt cfg env 2))],
                       failedRec blob (diskMsgAt cfg env 2)) := by
                  have := processGo_break cfg runId now env blob 0 2 (some e1) h2
                  simpa using this
                rw [hPB, hstep0, hstep1, hstep2]
                simp
              | true =>
                rcases hdl2 : (env 2).dl with _ | e2
                · refine Or.inr (Or.inr (Or.inr (Or.inr (Or.inr (Or.inr (Or.inr (Or.inl
                    ⟨e0, e1, rfl, rfl, hr0, rfl, rfl, hr1, rfl, rfl, ?_⟩)))))))
                  have hstep2 : processGo cfg runId now env blob 1 (1 + 1) (some e1)
                      = ([WorkerEv.sleep (baseDelay * 2 ^ 1),
                          WorkerEv.download blob.blobName 2,
                          WorkerEv.upsert (dledRec blob runId now)], dledRec blob runId now) := by
                    have := processGo_dlnone cfg runId now env blob 0 2 (some e1) h2 hdl2
                    simpa using this
                  rw [hPB, hstep0, hstep1, hstep2]
                  simp
                · refine Or.inr (Or.inr (Or.inr (Or.inr (Or.inr (Or.inr (Or.inr (Or.inr
                    ⟨e0, e1, e2, rfl, rfl, hr0, rfl, rfl, hr1, rfl, rfl, ?_⟩)))))))
                  have hstep2 : processGo cfg runId now env blob 1 (1 + 1) (some e1)
                      = ([WorkerEv.sleep (baseDelay * 2 ^ 1),
                          WorkerEv.download blob.blobName 2,
                          WorkerEv.recordError (errRow runId blob e2 2),
                          WorkerEv.upsert (failedRec blob e2)], failedRec blob e2) := by
                    cases hr2 : isRetryable (some e2) with
                    | false =>
                      have := processGo_fail_stop cfg runId now env blob 0 2 (some e1) e2 h2 hdl2 hr2
                      simpa using this
                    | true =>
                      have hs := processGo_fail_retry cfg runId now env blob 0 2 (some e1) e2 h2 hdl2 hr2
                      have hz := processGo_zero cfg runId now env blob (2 + 1) (some e2)
                      rw [hs, hz]
                      simp [failedRec]
                  rw [hPB, hstep0, hstep1, hstep2]
                  simp

/-- A breached usage reading fails the pre-flight guard. -/
theorem diskOk_false_of_breach (cfg : SyncConfig) (a : AttemptEnv) (u : Nat)
    (hu : a.usage = some u) (hb : cfg.diskStopPercent ≤ u) :
    diskOk cfg a = false := by
  simp [diskOk, hu]
  omega

/-- At most `maxRetries` download attempts occur. -/
theorem processBlob_attempts_le (cfg : SyncConfig) (runId : Int) (now : GoTime)
    (env : Nat → AttemptEnv) (blob : BlobState) :
    attemptsOf (processBlob cfg runId now env blob).1 ≤ maxRetries := by
  rcases processBlob_shape cfg runId now env blob with
    ⟨h0, hPB⟩ | ⟨h0, hdl0, hPB⟩ | ⟨e0, h0, hdl0, hr0, hPB⟩ |
    ⟨e0, h0, hdl0, hr0, h1, hPB⟩ | ⟨e0, h0, hdl0, hr0, h1, hdl1, hPB⟩ |
    ⟨e0, e1, h0, hdl0, hr0, h1, hdl1, hr1, hPB⟩ |
    ⟨e0, e1, h0, hdl0, hr0, h1, hdl1, hr1, h2, hPB⟩ |
    ⟨e0, e1, h0, hdl0, hr0, h1, hdl1, hr1, h2, hdl2, hPB⟩ |
    ⟨e0, e1, e2, h0, hdl0, hr0, h1, hdl1, hr1, h2, hdl2, hPB⟩ <;>
  rw [hPB] <;> simp [attemptsOf, maxRetries]

/-- The `j`-th backoff sleep (0-indexed) lasts `baseDelay * 2^j`: the
base delay doubles with every retry. -/
theorem processBlob_sleeps_doubling (cfg : SyncConfig) (runId : Int) (now : GoTime)
    (env : Nat → AttemptEnv) (blob : BlobState) :
    ((sleepsOf (processBlob cfg runId now env blob).1).length ≤ maxRetries - 1)
    ∧ ∀ j d, (sleepsOf (processBlob cfg runId now env blob).1).get? j = some d →
        d = baseDelay * 2 ^ j := by
  rcases processBlob_shape cfg runId now env blob with
    ⟨h0, hPB⟩ | ⟨h0, hdl0, hPB⟩ | ⟨e0, h0, hdl0, hr0, hPB⟩ |
    ⟨e0, h0, hdl0, hr0, h1, hPB⟩ | ⟨e0, h0, hdl0, hr0, h1, hdl1, hPB⟩ |
    ⟨e0, e1, h0, hdl0, hr0, h1, hdl1, hr1, hPB⟩ |
    ⟨e0, e1, h0, hdl0, hr0, h1, hdl1, hr1, h2, hPB⟩ |
    ⟨e0, e1, h0, hdl0, hr0, h1, hdl1, hr1, h2, hdl2, hPB⟩ |
    ⟨e0, e1, e2, h0, hdl0, hr0, h1, hdl1, hr1, h2, hdl2, hPB⟩ <;>
  rw [hPB] <;>
  refine ⟨by simp [sleepsOf, maxRetries], ?_⟩ <;>
  intro j d h <;>
  simp only [sleepsOf, List.filterMap] at h <;>
  rcases j with _ | _ | j <;> simp at h <;> omega

/-- Attempt `i+1` starts only after attempt `i` failed with a
retryable (network- or checksum-classified) error. -/
theorem processBlob_retry_requires_retryable (cfg : SyncConfig) (runId : Int)
    (now : GoTime) (env : Nat → AttemptEnv) (blob : BlobState) (i : Nat)
    (h : startedAttempt (processBlob cfg runId now env blob).1 (i + 1) = true) :
    ∃ e, (env i).dl = some e ∧ isRetryable (some e) = true := by
  rcases processBlob_shape cfg runId now env blob with
    ⟨h0, hPB⟩ | ⟨h0, hdl0, hPB⟩ | ⟨e0, h0, hdl0, hr0, hPB⟩ |
    ⟨e0, h0, hdl0, hr0, h1, hPB⟩ | ⟨e0, h0, hdl0, hr0, h1, hdl1, hPB⟩ |
    ⟨e0, e1, h0, hdl0, hr0, h1, hdl1, hr1, hPB⟩ |
    ⟨e0, e1, h0, hdl0, hr0, h1, hdl1, hr1, h2, hPB⟩ |
    ⟨e0, e1, h0, hdl0, hr0, h1, hdl1, hr1, h2, hdl2, hPB⟩ |
    ⟨e0, e1, e2, h0, hdl0, hr0, h1, hdl1, hr1, h2, hdl2, hPB⟩ <;>
  rw [hPB] at h <;> simp [startedAttempt] at h
  · obtain rfl : i = 0 := by omega
    exact ⟨e0, hdl0, hr0⟩
  · obtain rfl : i = 0 := by omega
    exact ⟨e0, hdl0, hr0⟩
  · obtain rfl : i = 0 := by omega
    exact ⟨e0, hdl0, hr0⟩
  · have hi : i = 0 ∨ i = 1 := by omega
    rcases hi with rfl | rfl
    · exact ⟨e0, hdl0, hr0⟩
    · exact ⟨e1, hdl1, hr1⟩
  · have hi : i = 0 ∨ i = 1 := by omega
    rcases hi with rfl | rfl
    · exact ⟨e0, hdl0, hr0⟩
    · exact ⟨e1, hdl1, hr1⟩

/-- A started attempt that fails with a non-retryable error is the last:
the record is upserted as failed with that error's message. -/
theorem processBlob_nonretryable_terminal (cfg : SyncConfig) (runId : Int)
    (now : GoTime) (env : Nat → AttemptEnv) (blob : BlobState) (i : Nat) (e : String)
    (hs : startedAttempt (processBlob cfg runId now env blob).1 i = true)
    (he : (env i).dl = some e) (hr : isRetryable (some e) = false) :
    (processBlob cfg runId now env blob).2.status = blobStatusFailed
    ∧ (processBlob cfg runId now env blob).2.errorMessage = some e := by
  rcases processBlob_shape cfg runId now env blob with
    ⟨h0, hPB⟩ | ⟨h0, hdl0, hPB⟩ | ⟨e0, h0, hdl0, hr0, hPB⟩ |
    ⟨e0, h0, hdl0, hr0, h1, hPB⟩ | ⟨e0, h0, hdl0, hr0, h1, hdl1, hPB⟩ |
    ⟨e0, e1, h0, hdl0, hr0, h1, hdl1, hr1, hPB⟩ |
    ⟨e0, e1, h0, hdl0, hr0, h1, hdl1, hr1, h2, hPB⟩ |
    ⟨e0, e1, h0, hdl0, hr0, h1, hdl1, hr1, h2, hdl2, hPB⟩ |
    ⟨e0, e1, e2, h0, hdl0, hr0, h1, hdl1, hr1, h2, hdl2, hPB⟩ <;>
  rw [hPB] at hs ⊢ <;> simp [startedAttempt] at hs
  · obtain rfl : i = 0 := by omega
    simp_all [failedRec]
  · obtain rfl : i = 0 := by omega
    simp_all [failedRec]
  · obtain rfl : i = 0 := by omega
    simp_all [failedRec]
  · have hi : i = 0 ∨ i = 1 := by omega
    rcases hi with rfl | rfl <;> simp_all [failedRec]
  · have hi : i = 0 ∨ i = 1 := by omega
    rcases hi with rfl | rfl <;> simp_all [failedRec]
  · have hi : i = 0 ∨ i = 1 := by omega
    rcases hi with rfl | rfl <;> simp_all [failedRec]
  · have hi : i = 0 ∨ i = 1 ∨ i = 2 := by omega
    rcases hi with rfl | rfl | rfl <;> simp_all [failedRec]
  · have hi : i = 0 ∨ i = 1 ∨ i = 2 := by omega
    rcases hi with rfl | rfl | rfl <;> simp_all [failedRec]

/-- A third attempt that fails leaves the record failed with that
error's message: the retry budget is exhausted. -/
theorem processBlob_exhaustion_terminal (cfg : SyncConfig) (runId : Int)
    (now : GoTime) (env : Nat → AttemptEnv) (blob : BlobState) (e : String)
    (hs : startedAttempt (processBlob cfg runId now env blob).1 2 = true)
    (he : (env 2).dl = some e) :
    (processBlob cfg runId now env blob).2.status = blobStatusFailed
    ∧ (processBlob cfg runId now env blob).2.errorMessage = some e := by
  rcases processBlob_shape cfg runId now env blob with
    ⟨h0, hPB⟩ | ⟨h0, hdl0, hPB⟩ | ⟨e0, h0, hdl0, hr0, hPB⟩ |
    ⟨e0, h0, hdl0, hr0, h1, hPB⟩ | ⟨e0, h0, hdl0, hr0, h1, hdl1, hPB⟩ |
    ⟨e0, e1, h0, hdl0, hr0, h1, hdl1, hr1, hPB⟩ |
    ⟨e0, e1, h0, hdl0, hr0, h1, hdl1, hr1, h2, hPB⟩ |
    ⟨e0, e1, h0, hdl0, hr0, h1, hdl1, hr1, h2, hdl2, hPB⟩ |
    ⟨e0, e1, e2, h0, hdl0, hr0, h1, hdl1, hr1, h2, hdl2, hPB⟩ <;>
  rw [hPB] at hs ⊢ <;> simp [startedAttempt] at hs <;> simp_all [failedRec]

/-- A retryable failure below the attempt limit is retried: when the
next pre-flight reading is healthy, the next attempt's download
starts. -/
theorem processBlob_retry_progress (cfg : SyncConfig) (runId : Int)
    (now : GoTime) (env : Nat → AttemptEnv) (blob : BlobState) (i : Nat) (e : String)
    (hlt : i + 1 < maxRetries)
    (hs : startedAttempt (processBlob cfg runId now env blob).1 i = true)
    (he : (env i).dl = some e) (hr : isRetryable (some e) = true)
    (hdisk : diskOk cfg (env (i + 1)) = true) :
    startedAttempt (processBlob cfg runId now env blob).1 (i + 1) = true := by
  rw [maxRetries] at hlt
  rcases processBlob_shape cfg runId now env blob with
    ⟨h0, hPB⟩ | ⟨h0, hdl0, hPB⟩ | ⟨e0, h0, hdl0, hr0, hPB⟩ |
    ⟨e0, h0, hdl0, hr0, h1, hPB⟩ | ⟨e0, h0, hdl0, hr0, h1, hdl1, hPB⟩ |
    ⟨e0, e1, h0, hdl0, hr0, h1, hdl1, hr1, hPB⟩ |
    ⟨e0, e1, h0, hdl0, hr0, h1, hdl1, hr1, h2, hPB⟩ |
    ⟨e0, e1, h0, hdl0, hr0, h1, hdl1, hr1, h2, hdl2, hPB⟩ |
    ⟨e0, e1, e2, h0, hdl0, hr0, h1, hdl1, hr1, h2, hdl2, hPB⟩ <;>
  rw [hPB] at hs ⊢ <;> simp [startedAttempt] at hs ⊢
  · obtain rfl : i = 0 := by omega
    simp_all
  · obtain rfl : i = 0 := by omega
    simp_all
  · obtain rfl : i = 0 := by omega
    simp_all
  · have hi : i = 0 ∨ i = 1 := by omega
    rcases hi with rfl | rfl <;> simp_all
  · have hi : i = 0 ∨ i = 1 := by omega
    rcases hi with rfl | rfl <;> simp_all
  · have hi : i = 0 ∨ i = 1 := by omega
    rcases hi with rfl | rfl <;> simp_all
  · have hi : i = 0 ∨ i = 1 := by omega
    rcases hi with rfl | rfl <;> simp_all
  · have hi : i = 0 ∨ i = 1 := by omega
    rcases hi with rfl | rfl <;> simp_all

/-- No download attempt starts at an iteration whose usage reading is
at or above the stop threshold. -/
theorem processBlob_breach_no_download (cfg : SyncConfig) (runId : Int)
    (now : GoTime) (env : Nat → AttemptEnv) (blob : BlobState) (i u : Nat)
    (hu : (env i).usage = some u) (hb : cfg.diskStopPercent ≤ u) :
    startedAttempt (processBlob cfg runId now env blob).1 i = false := by
  have hdof := diskOk_false_of_breach cfg (env i) u hu hb
  rcases processBlob_shape cfg runId now env blob with
    ⟨h0, hPB⟩ | ⟨h0, hdl0, hPB⟩ | ⟨e0, h0, hdl0, hr0, hPB⟩ |
    ⟨e0, h0, hdl0, hr0, h1, hPB⟩ | ⟨e0, h0, hdl0, hr0, h1, hdl1, hPB⟩ |
    ⟨e0, e1, h0, hdl0, hr0, h1, hdl1, hr1, hPB⟩ |
    ⟨e0, e1, h0, hdl0, hr0, h1, hdl1, hr1, h2, hPB⟩ |
    ⟨e0, e1, h0, hdl0, hr0, h1, hdl1, hr1, h2, hdl2, hPB⟩ |
    ⟨e0, e1, e2, h0, hdl0, hr0, h1, hdl1, hr1, h2, hdl2, hPB⟩ <;>
  rw [hPB] <;> by_contra hc <;> rw [Bool.not_eq_false] at hc <;>
    simp [startedAttempt] at hc
  · obtain rfl : i = 0 := by omega
    simp_all
  · obtain rfl : i = 0 := by omega
    simp_all
  · obtain rfl : i = 0 := by omega
    simp_all
  · have hi : i = 0 ∨ i = 1 := by omega
    rcases hi with rfl | rfl <;> simp_all
  · have hi : i = 0 ∨ i = 1 := by omega
    rcases hi with rfl | rfl <;> simp_all
  · have hi : i = 0 ∨ i = 1 := by omega
    rcases hi with rfl | rfl <;> simp_all
  · have hi : i = 0 ∨ i = 1 ∨ i = 2 := by omega
    rcases hi with rfl | rfl | rfl <;> simp_all
  · have hi : i = 0 ∨ i = 1 ∨ i = 2 := by omega
    rcases hi with rfl | rfl | rfl <;> simp_all

/-- A breach observed before the first attempt aborts the item at once:
the only trace event is the upsert of the failed record carrying the
disk-exhaustion message, and that record is the result. -/
theorem processBlob_breach_immediate (cfg : SyncConfig) (runId : Int)
    (now : GoTime) (env : Nat → AttemptEnv) (blob : BlobState) (u : Nat)
    (hu : (env 0).usage = some u) (hb : cfg.diskStopPercent ≤ u) :
    processBlob cfg runId now env blob
      = ([WorkerEv.upsert (failedRec blob (diskExhaustedMsg u cfg.diskStopPercent))],
         failedRec blob (diskExhaustedMsg u cfg.diskStopPercent)) := by
  have h0 := diskOk_false_of_breach cfg (env 0) u hu hb
  rw [show processBlob cfg runId now env blob
      = processGo cfg runId now env blob (2 + 1) 0 none from rfl,
    processGo_break cfg runId now env blob 2 0 none h0]
  simp [diskMsgAt, hu]

/-- The worker loop processes every queue item in order, regardless of
earlier items' outcomes. -/
theorem runWorker_get (cfg : SyncConfig) (runId : Int) (now : GoTime)
    (envs : Nat → Nat → AttemptEnv) :
    ∀ (items : List BlobState) (idx k : Nat),
      (runWorker cfg runId now envs items idx).get? k
        = (items.get? k).map (fun b => processBlob cfg runId now (envs (idx + k)) b) := by
  intro items
  induction items with
  | nil => intro idx k; cases k <;> rfl
  | cons b rest ih =>
    intro idx k
    cases k with
    | zero => rfl
    | succ m =>
      show (runWorker cfg runId now envs rest (idx + 1)).get? m = _
      rw [ih (idx + 1) m, show idx + 1 + m = idx + (m + 1) by omega]
      rfl

/-! ## Claim C3 -/

/-- Claim C3: the worker performs at most `maxRetries` (3) download
attempts per item; between attempts it sleeps with the base delay
doubling per attempt (the `j`-th backoff sleep lasts
`baseDelay * 2^j`); an attempt `i+1` starts only after attempt `i`
failed with a network- or checksum-classified (retryable) error, and a
retryable failure below the limit is retried whenever the next
pre-flight disk reading is healthy; an attempt failing with a
non-retryable (disk-, auth- or unknown-classified) error is the last,
and after it — as after a failing third attempt — the record is
upserted `failed` carrying the last error's message; and the worker
loop still processes every remaining queue item. -/
theorem processBlob_retry_policy (cfg : SyncConfig) (runId : Int) (now : GoTime)
    (env : Nat → AttemptEnv) (blob : BlobState) :
    attemptsOf (processBlob cfg runId now env blob).1 ≤ maxRetries
    ∧ (sleepsOf (processBlob cfg runId now env blob).1).length ≤ maxRetries - 1
    ∧ (∀ j d, (sleepsOf (processBlob cfg runId now env blob).1).get? j = some d →
        d = baseDelay * 2 ^ j)
    ∧ (∀ i, startedAttempt (processBlob cfg runId now env blob).1 (i + 1) = true →
        ∃ e, (env i).dl = some e ∧ isRetryable (some e) = true)
    ∧ (∀ i e, startedAttempt (processBlob cfg runId now env blob).1 i = true →
        (env i).dl = some e → isRetryable (some e) = false →
        (processBlob cfg runId now env blob).2.status = blobStatusFailed
        ∧ (processBlob cfg runId now env blob).2.errorMessage = some e)
    ∧ (∀ e, startedAttempt (processBlob cfg runId now env blob).1 2 = true →
        (env 2).dl = some e →
        (processBlob cfg runId now env blob).2.status = blobStatusFailed
        ∧ (processBlob cfg runId now env blob).2.errorMessage = some e)
    ∧ (∀ i e, i + 1 < maxRetries →
        startedAttempt (processBlob cfg runId now env blob).1 i = true →
        (env i).dl = some e → isRetryable (some e) = true →
        diskOk cfg (env (i + 1)) = true →
        startedAttempt (processBlob cfg runId now env blob).1 (i + 1) = true)
    ∧ (∀ (envs : Nat → Nat → AttemptEnv) (items : List BlobState) (idx k : Nat),
        (runWorker cfg runId now envs items idx).get? k
          = (items.get? k).map (fun b => processBlob cfg runId now (envs (idx + k)) b)) :=
  ⟨processBlob_attempts_le cfg runId now env blob,
   (processBlob_sleeps_doubling cfg runId now env blob).1,
   (processBlob_sleeps_doubling cfg runId now env blob).2,
   fun i h => processBlob_retry_requires_retryable cfg runId now env blob i h,
   fun i e hs he hr => processBlob_nonretryable_terminal cfg runId now env blob i e hs he hr,
   fun e hs he => processBlob_exhaustion_terminal cfg runId now env blob e hs he,
   fun i e hlt hs he hr hd => processBlob_retry_progress cfg runId now env blob i e hlt hs he hr hd,
   fun envs items idx k => runWorker_get cfg runId now envs items idx k⟩

/-- Claim C3 witness: concrete runs — three attempts with doubling
sleeps for a persistent network error ending `failed` with its message,
a single attempt for an auth error, and the two-item queue processed
end to end. -/
theorem processBlob_retry_policy_witness :
    attemptsOf (processBlob exCfg 1 exNow envNetFail exPending).1 ≤ maxRetries
    ∧ (∃ e, (envNetFail 0).dl = some e ∧ isRetryable (some e) = true)
    ∧ ((processBlob exCfg 1 exNow envAuthFail exPending).2.status = blobStatusFailed
        ∧ (processBlob exCfg 1 exNow envAuthFail exPending).2.errorMessage
          = some "unauthorized")
    ∧ ((processBlob exCfg 1 exNow envNetFail exPending).2.status = blobStatusFailed
        ∧ (processBlob exCfg 1 exNow envNetFail exPending).2.errorMessage
          = some "network down")
    ∧ startedAttempt (processBlob exCfg 1 exNow envNetFail exPending).1 1 = true
    ∧ ((sleepsOf (processBlob exCfg 1 exNow envNetFail exPending).1).get? 1
        = some (baseDelay * 2 ^ 1))
    ∧ (runWorker exCfg 1 exNow (fun _ => envOk) [exPending, exPending2] 0).get? 1
      = some (processBlob exCfg 1 exNow envOk exPending2) := by
  refine ⟨(processBlob_retry_policy exCfg 1 exNow envNetFail exPending).1,
    (processBlob_retry_policy exCfg 1 exNow envNetFail exPending).2.2.2.1 0 (by decide),
    (processBlob_retry_policy exCfg 1 exNow envAuthFail exPending).2.2.2.2.1 0
      "unauthorized" (by decide) rfl (by decide),
    (processBlob_retry_policy exCfg 1 exNow envNetFail exPending).2.2.2.2.2.1
      "network down" (by decide) rfl,
    (processBlob_retry_policy exCfg 1 exNow envNetFail exPending).2.2.2.2.2.2.1 0
      "network down" (by decide) (by decide) rfl (by decide) rfl,
    ?_, ?_⟩
  · have hd := (processBlob_retry_policy exCfg 1 exNow envNetFail exPending).2.2.1 1
      (baseDelay * 2 ^ 1)
    have : (sleepsOf (processBlob exCfg 1 exNow envNetFail exPending).1).get? 1
        = some (baseDelay * 2 ^ 1) := by decide
    exact this
  · have := (processBlob_retry_policy exCfg 1 exNow envOk exPending).2.2.2.2.2.2.2
      (fun _ => envOk) [exPending, exPending2] 0 1
    simpa using this

/-! ## Claim C8 -/

/-- Claim C8 counterexample: a worker whose first usage reading
breaches the stop threshold fails the item (status `failed`, with the
disk-exhaustion message) without writing any error-log entry — the
disk-threshold abort bypasses `RecordError`, so the claim that every
failed attempt, including the disk-threshold abort, writes an Error
Log Entry is false on this input. -/
theorem disk_abort_writes_no_error_log :
    (processBlob exCfg 1 exNow envBreach exPending).2.status = blobStatusFailed
    ∧ (processBlob exCfg 1 exNow envBreach exPending).2.errorMessage
      = some (diskExhaustedMsg 95 90)
    ∧ errorRowsOf (processBlob exCfg 1 exNow envBreach exPending).1 = [] := by
  decide

/-- Claim C8 (amended): every download attempt that fails — i.e. every
attempt whose `downloadBlob` call returns an error — writes an
error-log entry carrying the run id, blob name, classified error type,
message and the attempt index, and that entry appears in the trace
before the backoff sleep of the next attempt (whose duration is
`baseDelay * 2^i`); the disk-threshold abort, which fails the item
before any download starts, writes no entry. -/
theorem processBlob_records_failed_download_attempts (cfg : SyncConfig) (runId : Int)
    (now : GoTime) (env : Nat → AttemptEnv) (blob : BlobState) (i : Nat) (e : String)
    (hs : startedAttempt (processBlob cfg runId now env blob).1 i = true)
    (he : (env i).dl = some e) :
    ∃ pre post, (processBlob cfg runId now env blob).1
        = pre ++ WorkerEv.recordError (errRow runId blob e i) :: post
      ∧ WorkerEv.sleep (baseDelay * 2 ^ i) ∉ pre := by
  rcases processBlob_shape cfg runId now env blob with
    ⟨h0, hPB⟩ | ⟨h0, hdl0, hPB⟩ | ⟨e0, h0, hdl0, hr0, hPB⟩ |
    ⟨e0, h0, hdl0, hr0, h1, hPB⟩ | ⟨e0, h0, hdl0, hr0, h1, hdl1, hPB⟩ |
    ⟨e0, e1, h0, hdl0, hr0, h1, hdl1, hr1, hPB⟩ |
    ⟨e0, e1, h0, hdl0, hr0, h1, hdl1, hr1, h2, hPB⟩ |
    ⟨e0, e1, h0, hdl0, hr0, h1, hdl1, hr1, h2, hdl2, hPB⟩ |
    ⟨e0, e1, e2, h0, hdl0, hr0, h1, hdl1, hr1, h2, hdl2, hPB⟩ <;>
  rw [hPB] at hs ⊢ <;> simp [startedAttempt] at hs
  · obtain rfl : i = 0 := by omega
    rw [hdl0] at he
    exact Option.noConfusion he
  · obtain rfl : i = 0 := by omega
    rw [hdl0] at he
    obtain rfl := Option.some.inj he
    exact ⟨[WorkerEv.download blob.blobName 0],
      [WorkerEv.upsert (failedRec blob e0)], rfl, by simp⟩
  · obtain rfl : i = 0 := by omega
    rw [hdl0] at he
    obtain rfl := Option.some.inj he
    exact ⟨[WorkerEv.download blob.blobName 0],
      [WorkerEv.sleep (baseDelay * 2 ^ 0),
       WorkerEv.upsert (failedRec blob (diskMsgAt cfg env 1))], rfl, by simp⟩
  · have hi : i = 0 ∨ i = 1 := by omega
    rcases hi with rfl | rfl
    · rw [hdl0] at he
      obtain rfl := Option.some.inj he
      exact ⟨[WorkerEv.download blob.blobName 0],
        [WorkerEv.sleep (baseDelay * 2 ^ 0), WorkerEv.download blob.blobName 1,
         WorkerEv.upsert (dledRec blob runId now)], rfl, by simp⟩
    · rw [hdl1] at he
      exact Option.noConfusion he
  · have hi : i = 0 ∨ i = 1 := by omega
    rcases hi with rfl | rfl
    · rw [hdl0] at he
      obtain rfl := Option.some.inj he
      exact ⟨[WorkerEv.download blob.blobName 0],
        [WorkerEv.sleep (baseDelay * 2 ^ 0), WorkerEv.download blob.blobName 1,
         WorkerEv.recordError (errRow runId blob e1 1),
         WorkerEv.upsert (failedRec blob e1)], rfl, by simp⟩
    · rw [hdl1] at he
      obtain rfl := Option.some.inj he
      exact ⟨[WorkerEv.download blob.blobName 0,
          WorkerEv.recordError (errRow runId blob e0 0),
          WorkerEv.sleep (baseDelay * 2 ^ 0), WorkerEv.download blob.blobName 1],
        [WorkerEv.upsert (failedRec blob e1)], rfl, by simp [baseDelay]⟩
  · have hi : i = 0 ∨ i = 1 := by omega
    rcases hi with rfl | rfl
    · rw [hdl0] at he
      obtain rfl := Option.some.inj he
      exact ⟨[WorkerEv.download blob.blobName 0],
        [WorkerEv.sleep (baseDelay * 2 ^ 0), WorkerEv.download blob.blobName 1,
         WorkerEv.recordError (errRow runId blob e1 1),
         WorkerEv.sleep (baseDelay * 2 ^ 1),
         WorkerEv.upsert (failedRec blob (diskMsgAt cfg env 2))], rfl, by simp⟩
    · rw [hdl1] at he
      obtain rfl := Option.some.inj he
      exact ⟨[WorkerEv.download blob.blobName 0,
          WorkerEv.recordError (errRow runId blob e0 0),
          WorkerEv.sleep (baseDelay * 2 ^ 0), WorkerEv.download blob.blobName 1],
        [WorkerEv.sleep (baseDelay * 2 ^ 1),
         WorkerEv.upsert (failedRec blob (diskMsgAt cfg env 2))], rfl, by simp [baseDelay]⟩
  · have hi : i = 0 ∨ i = 1 ∨ i = 2 := by omega
    rcases hi with rfl | rfl | rfl
    · rw [hdl0] at he
      obtain rfl := Option.some.inj he
      exact ⟨[WorkerEv.download blob.blobName 0],
        [WorkerEv.sleep (baseDelay * 2 ^ 0), WorkerEv.download blob.blobName 1,
         WorkerEv.recordError (errRow runId blob e1 1),
         WorkerEv.sleep (baseDelay * 2 ^ 1), WorkerEv.download blob.blobName 2,
         WorkerEv.upsert (dledRec blob runId now)], rfl, by simp⟩
    · rw [hdl1] at he
      obtain rfl := Option.some.inj he
      exact ⟨[WorkerEv.download blob.blobName 0,
          WorkerEv.recordError (errRow runId blob e0 0),
          WorkerEv.sleep (baseDelay * 2 ^ 0), WorkerEv.download blob.blobName 1],
        [WorkerEv.sleep (baseDelay * 2 ^ 1), WorkerEv.download blob.blobName 2,
         WorkerEv.upsert (dledRec blob runId now)], rfl, by simp [baseDelay]⟩
    · rw [hdl2] at he
      exact Option.noConfusion he
  · have hi : i = 0 ∨ i = 1 ∨ i = 2 := by omega
    rcases hi with rfl | rfl | rfl
    · rw [hdl0] at he
      obtain rfl := Option.some.inj he
      exact ⟨[WorkerEv.download blob.blobName 0],
        [WorkerEv.sleep (baseDelay * 2 ^ 0), WorkerEv.download blob.blobName 1,
         WorkerEv.recordError (errRow runId blob e1 1),
         WorkerEv.sleep (baseDelay * 2 ^ 1), WorkerEv.download blob.blobName 2,
         WorkerEv.recordError (errRow runId blob e2 2),
         WorkerEv.upsert (failedRec blob e2)], rfl, by simp⟩
    · rw [hdl1] at he
      obtain rfl := Option.some.inj he
      exact ⟨[WorkerEv.download blob.blobName 0,
          WorkerEv.recordError (errRow runId blob e0 0),
          WorkerEv.sleep (baseDelay * 2 ^ 0), WorkerEv.download blob.blobName 1],
        [WorkerEv.sleep (baseDelay * 2 ^ 1), WorkerEv.download blob.blobName 2,
         WorkerEv.recordError (errRow runId blob e2 2),
         WorkerEv.upsert (failedRec blob e2)], rfl, by simp [baseDelay]⟩
    · rw [hdl2] at he
      obtain rfl := Option.some.inj he
      exact ⟨[WorkerEv.download blob.blobName 0,
          WorkerEv.recordError (errRow runId blob e0 0),
          WorkerEv.sleep (baseDelay * 2 ^ 0), WorkerEv.download blob.blobName 1,
          WorkerEv.recordError (errRow runId blob e1 1),
          WorkerEv.sleep (baseDelay * 2 ^ 1), WorkerEv.download blob.blobName 2],
        [WorkerEv.upsert (failedRec blob e2)], rfl, by simp [baseDelay]⟩

/-- Claim C8 witness: the single auth-classified failure writes its
error-log row (attempt index 0) with no sleep before it. -/
theorem processBlob_records_failed_download_attempts_witness :
    ∃ pre post, (processBlob exCfg 1 exNow envAuthFail exPending).1
        = pre ++ WorkerEv.recordError (errRow 1 exPending "unauthorized" 0) :: post
      ∧ WorkerEv.sleep (baseDelay * 2 ^ 0) ∉ pre :=
  processBlob_records_failed_download_attempts exCfg 1 exNow envAuthFail exPending 0
    "unauthorized" (by decide) rfl

/-! ## Claim C9 -/

/-- Claim C9 counterexample: on a two-item queue whose first item
observes usage 95% (stop threshold 90%), the first item is aborted with
the disk-exhaustion error, yet the worker then takes the second item
and — its own reading being healthy — starts a new download attempt and
completes it.  This refutes the claim that after an observed breach no
new download attempt is started by any worker. -/
theorem breach_does_not_halt_pool :
    ((runWorker exCfg 1 exNow envQueue [exPending, exPending2] 0).get? 0).map
        (fun r => r.2.errorMessage) = some (some (diskExhaustedMsg 95 90))
    ∧ ((runWorker exCfg 1 exNow envQueue [exPending, exPending2] 0).get? 0).map
        (fun r => startedAttempt r.1 0) = some false
    ∧ ((runWorker exCfg 1 exNow envQueue [exPending, exPending2] 0).get? 1).map
        (fun r => startedAttempt r.1 0) = some true
    ∧ ((runWorker exCfg 1 exNow envQueue [exPending, exPending2] 0).get? 1).map
        (fun r => r.2.status) = some blobStatusDownloaded := by
  decide

/-- Claim C9 (amended): a usage reading at or above the stop threshold
prevents that iteration's download from ever starting, and a breach on
the very first reading aborts the item immediately — the whole trace is
the single upsert of the failed record carrying the disk-exhaustion
message, so the item is never retried (at the concrete breach reading
the message classifies as `disk` and is not retryable).  The halt is
per item, not process-wide: the worker loop keeps taking every queue
item in order, each guarded by its own fresh pre-flight reading. -/
theorem processBlob_disk_stop_guard (cfg : SyncConfig) (runId : Int) (now : GoTime)
    (env : Nat → AttemptEnv) (blob : BlobState) :
    (∀ i u, (env i).usage = some u → cfg.diskStopPercent ≤ u →
      startedAttempt (processBlob cfg runId now env blob).1 i = false)
    ∧ (∀ u, (env 0).usage = some u → cfg.diskStopPercent ≤ u →
        processBlob cfg runId now env blob
          = ([WorkerEv.upsert (failedRec blob (diskExhaustedMsg u cfg.diskStopPercent))],
             failedRec blob (diskExhaustedMsg u cfg.diskStopPercent)))
    ∧ (classifyError (some (diskExhaustedMsg 95 90)) = errorTypeDisk
        ∧ isRetryable (some (diskExhaustedMsg 95 90)) = false)
    ∧ (∀ (envs : Nat → Nat → AttemptEnv) (items : List BlobState) (idx k : Nat),
        (runWorker cfg runId now envs items idx).get? k
          = (items.get? k).map (fun b => processBlob cfg runId now (envs (idx + k)) b)) :=
  ⟨fun i u hu hb => processBlob_breach_no_download cfg runId now env blob i u hu hb,
   fun u hu hb => processBlob_breach_immediate cfg runId now env blob u hu hb,
   by decide,
   fun envs items idx k => runWorker_get cfg runId now envs items idx k⟩

/-- Claim C9 witness: the concrete breach — usage 95 against stop
threshold 90 — never starts a download and aborts the item with the
single failed-record upsert. -/
theorem processBlob_disk_stop_guard_witness :
    startedAttempt (processBlob exCfg 1 exNow envBreach exPending).1 0 = false
    ∧ processBlob exCfg 1 exNow envBreach exPending
      = ([WorkerEv.upsert (failedRec exPending (diskExhaustedMsg 95 90))],
         failedRec exPending (diskExhaustedMsg 95 90)) :=
  ⟨(processBlob_disk_stop_guard exCfg 1 exNow envBreach exPending).1 0 95 rfl (by decide),
   (processBlob_disk_stop_guard exCfg 1 exNow envBreach exPending).2.1 95 rfl (by decide)⟩
